import Mathlib

/-!
Shallow embedding of the daily production-planning engine of `생산계획.py`
(`SmartScheduler._run` and its inner `schedule_product`), together with
proofs of the stated invariants and scenario properties.

Python floats are modelled as exact rationals (`ℚ`); every arithmetic
operation of the source is transcribed literally (saturating `max 0 _`
withdrawals, headroom-clamped deposits, the `0.001` completion tolerance).
GUI entry values are modelled as an already-parsed `Config` record: the
presentation layer substitutes `0.0` for unparsable text, so the engine
only ever sees plain numbers.
-/

namespace PlanSim

/-! ### Configuration constants (설정 상수) -/

def PACK_S3 : ℚ := 160
def PACK_S1_S2_COMBINED : ℚ := 100
@[reducible] def DAYS : Nat := 30
def INVENTORY_CAP : ℚ := 500
def SILO2_CAP : ℚ := 300
def NP3_MAX_INV : ℚ := 350
def LV_INIT : ℚ := 100
def LLV_INIT : ℚ := 180
def NP3_INIT_VAL : ℚ := 120
def NP3_MIN_STOCK_BEFORE_CAMPAIGN : ℚ := 50
def NP3_TARGET_BATCH_PRODUCTION_SIZE : ℚ := 320
def NP3_PRODUCTION_RATE_IN_CAMPAIGN : ℚ := 1/2
def MINIMUM_RUN_DAYS : ℚ := 3
def RESERVATION_BUFFER_DAYS : ℚ := MINIMUM_RUN_DAYS
def S2_LV_MIN_STOCK_TRIGGER : ℚ := 30
def S1_HV_MAX_CAPA : ℚ := 400
def LLV_SAFETY_STOCK_FOR_C : ℚ := 50

/-- The `0.001` floating-point completion tolerance. -/
def EPS : ℚ := 1/1000

/-! ### Data model -/

/-- Parsed values of the GUI entry fields consumed by `_run`
(`b_goal`, …, `s1_hv_max_capa`) plus the emergency-mode checkbox. -/
structure Config where
  b_goal : ℚ := 0
  c_goal : ℚ := 0
  f_goal : ℚ := 0
  f_daily : ℚ := 0
  g_goal : ℚ := 0
  g_daily : ℚ := 0
  h_goal : ℚ := 0
  h_daily : ℚ := 0
  d_goal : ℚ := 0
  l3_cap : ℚ := 0
  l2_cap : ℚ := 0
  f_line_capa : ℚ := 0
  c_line_capa : ℚ := 0
  granule_line_capa : ℚ := 0
  s2_daily : ℚ := 0
  s2_emerg : ℚ := 0
  s1s2_pack_capa : ℚ := 0
  s1_hv_max_capa : ℚ := 0
  emerg : Bool := false
  deriving DecidableEq

/-- The seven keys of `products_db`. -/
inductive ProductId
  | C_PELLET | F_PELLET | H_PELLET | G_PELLET | LV_PACK | LLV_PACK | HV_PACK
  deriving DecidableEq, Fintype

/-- The five `material_var_name` strings occurring in recipes;
`material_map` sends each to a `(silo, material)` pair. -/
inductive MaterialVar
  | s1_HV | s2_LV | LV | LLV | NP3
  deriving DecidableEq

/-- The `stocks` dictionary: every `(silo, material)` key present in the
source's initial dictionary, as one record. -/
structure Stocks where
  s1_HV : ℚ
  s1_LV : ℚ
  s1_LLV : ℚ
  s2_HV : ℚ
  s2_LV : ℚ
  s2_LLV : ℚ
  s3_HV : ℚ
  s3_LV : ℚ
  s3_LLV : ℚ
  s3_NP3 : ℚ
  deriving DecidableEq, Inhabited

/-- `stocks[silo][material]` for a recipe material reference
(composition of `material_map` with the dictionary lookup). -/
def getStock (st : Stocks) : MaterialVar → ℚ
  | .s1_HV => st.s1_HV
  | .s2_LV => st.s2_LV
  | .LV => st.s3_LV
  | .LLV => st.s3_LLV
  | .NP3 => st.s3_NP3

/-- `stocks[silo][material] = q` for a recipe material reference. -/
def setStock (st : Stocks) : MaterialVar → ℚ → Stocks
  | .s1_HV, q => { st with s1_HV := q }
  | .s2_LV, q => { st with s2_LV := q }
  | .LV, q => { st with s3_LV := q }
  | .LLV, q => { st with s3_LLV := q }
  | .NP3, q => { st with s3_NP3 := q }

/-- The `recipe` lists of `products_db` (material reference, qty per unit). -/
def recipe : ProductId → List (MaterialVar × ℚ)
  | .C_PELLET => [(.LLV, 1)]
  | .F_PELLET => [(.NP3, 1)]
  | .H_PELLET => [(.s1_HV, 1/2), (.s2_LV, 1/2)]
  | .G_PELLET => [(.s1_HV, 1)]
  | .LV_PACK => [(.LV, 1)]
  | .LLV_PACK => [(.LLV, 1)]
  | .HV_PACK => [(.s1_HV, 1)]

/-- The configured target of each product (`target_key` lookup);
`HV_PACK` has `target_key = None` and therefore target `0`. -/
def goalOf (cfg : Config) : ProductId → ℚ
  | .C_PELLET => cfg.c_goal
  | .F_PELLET => cfg.f_goal
  | .H_PELLET => cfg.h_goal
  | .G_PELLET => cfg.g_goal
  | .LV_PACK => cfg.b_goal
  | .LLV_PACK => cfg.d_goal
  | .HV_PACK => 0

/-- One `product_status[pid]` entry. -/
structure Status where
  goal_orig : ℚ
  left : ℚ
  packed_today : ℚ
  packed_sum : ℚ
  deriving DecidableEq, Inhabited

/-- The mutable simulation state threaded through a run: the
`product_status` table, the `stocks` ledger and the `switches` counter. -/
structure SimState where
  product_status : ProductId → Status
  stocks : Stocks
  switches : Nat

/-- State at the top of `_run`, before the day loop. -/
def initState (cfg : Config) : SimState :=
  { product_status := fun pid =>
      { goal_orig := goalOf cfg pid, left := goalOf cfg pid
        packed_today := 0, packed_sum := 0 }
    stocks :=
      { s1_HV := LV_INIT, s1_LV := 0, s1_LLV := 0
        s2_HV := 0, s2_LV := LV_INIT, s2_LLV := 0
        s3_HV := 0, s3_LV := LV_INIT, s3_LLV := LLV_INIT, s3_NP3 := NP3_INIT_VAL }
    switches := 0 }

/-- Replace one product's status entry. -/
def updateStatus (s : SimState) (pid : ProductId) (st : Status) : SimState :=
  { s with product_status := fun q => if q = pid then st else s.product_status q }

/-- The quantity of an ingredient visible to a product: `C_PELLET` sees its
S3 LLV stock reduced by the reserved safety floor. -/
def availFor (pid : ProductId) (st : Stocks) (m : MaterialVar) : ℚ :=
  let available_qty := getStock st m
  if pid = .C_PELLET ∧ m = .LLV then max 0 (available_qty - LLV_SAFETY_STOCK_FOR_C)
  else available_qty

/-! ### `schedule_product` -/

/-- Inner function `schedule_product(pid, capacity_limit)`: returns the
produced amount and the updated state.  Note the source applies the
capacity bound only when `capacity_limit > 0`. -/
def schedule_product (pid : ProductId) (capacity_limit : ℚ) (s : SimState) :
    ℚ × SimState :=
  if pid = .HV_PACK then (0, s)
  else
    let status := s.product_status pid
    let goal_left := status.left
    if goal_left ≤ 0 then (0, s)
    else
      let allowed_by_capacity :=
        if capacity_limit > 0 then min goal_left capacity_limit else goal_left
      let max_producible := (recipe pid).foldl
        (fun acc ing =>
          let available_qty := availFor pid s.stocks ing.1
          if ing.2 > 0 then min acc (available_qty / ing.2) else acc)
        allowed_by_capacity
      let produced := max 0 (min allowed_by_capacity max_producible)
      if produced ≤ 0 then (0, s)
      else
        let s1 := updateStatus s pid
          { status with
            packed_today := produced
            left := max 0 (status.left - produced)
            packed_sum := status.packed_sum + produced }
        let newStocks := (recipe pid).foldl
          (fun st ing => setStock st ing.1 (max 0 (getStock st ing.1 - ing.2 * produced)))
          s1.stocks
        (produced, { s1 with stocks := newStocks })

/-! ### Planning phase (the `planned_*` and `required_*` values) -/

structure Planned where
  planned_h : ℚ
  planned_g : ℚ
  planned_hv : ℚ
  planned_f : ℚ
  planned_c : ℚ
  planned_lv : ℚ
  planned_llv : ℚ
  required_s1_hv : ℚ
  required_s2_lv : ℚ
  required_s3_lv : ℚ
  required_s3_llv : ℚ
  required_np3 : ℚ
  deriving DecidableEq

/-- The per-day demand projection computed before replenishment. -/
def planDay (cfg : Config) (s : SimState) : Planned :=
  let rem0 := cfg.s1s2_pack_capa
  let planned_h_capacity := if cfg.h_daily > 0 then min rem0 cfg.h_daily else rem0
  let planned_h := min (s.product_status .H_PELLET).left planned_h_capacity
  let rem1 := max 0 (rem0 - planned_h)
  let planned_g_capacity := if cfg.g_daily > 0 then min rem1 cfg.g_daily else rem1
  let planned_g := min (s.product_status .G_PELLET).left planned_g_capacity
  let rem2 := max 0 (rem1 - planned_g)
  let planned_hv := max 0 (min rem2 cfg.s1_hv_max_capa)
  let planned_f_capacity :=
    if cfg.f_daily > 0 then min cfg.f_line_capa cfg.f_daily else cfg.f_line_capa
  let planned_f := min (s.product_status .F_PELLET).left planned_f_capacity
  let planned_c := min (s.product_status .C_PELLET).left cfg.c_line_capa
  let gran0 := cfg.granule_line_capa
  let planned_lv := min (s.product_status .LV_PACK).left gran0
  let gran1 := max 0 (gran0 - planned_lv)
  let planned_llv := min (s.product_status .LLV_PACK).left gran1
  { planned_h := planned_h, planned_g := planned_g, planned_hv := planned_hv
    planned_f := planned_f, planned_c := planned_c
    planned_lv := planned_lv, planned_llv := planned_llv
    required_s1_hv := 1/2 * planned_h + planned_g + planned_hv
    required_s2_lv := 1/2 * planned_h
    required_s3_lv := planned_lv
    required_s3_llv := planned_c + planned_llv
    required_np3 := planned_f }

/-! ### Replenishment phase (`raw_production_today`) -/

/-- The `raw_production_today` dictionary. -/
structure RawProd where
  s3_LV_prod : ℚ
  LLV_prod : ℚ
  NP3_prod : ℚ
  HV_prod : ℚ
  s2_LV_input : ℚ
  deriving DecidableEq, Inhabited

/-- Daily S2 LV input capacity; the emergency-mode flag adds the
configured emergency allowance. -/
def s2_lv_capacity (cfg : Config) : ℚ :=
  if cfg.emerg then cfg.s2_daily + cfg.s2_emerg else cfg.s2_daily

/-- S2 LV input block (lines 639-654): push S2 LV toward
`max(required, trigger)` capped at `SILO2_CAP`. -/
def s2Block (cfg : Config) (pl : Planned) (st : Stocks) : Stocks × ℚ :=
  let cap := s2_lv_capacity cfg
  let target0 := max pl.required_s2_lv S2_LV_MIN_STOCK_TRIGGER
  let target_s2_lv := if target0 > SILO2_CAP then SILO2_CAP else target0
  let current_s2_lv := st.s2_LV
  if current_s2_lv < target_s2_lv then
    let produce_s2_lv :=
      min (target_s2_lv - current_s2_lv) (min (max 0 cap) (SILO2_CAP - current_s2_lv))
    if produce_s2_lv > 0 then ({ st with s2_LV := st.s2_LV + produce_s2_lv }, produce_s2_lv)
    else (st, 0)
  else (st, 0)

/-- Ordinary S3 LV replenishment (lines 656-670). -/
def s3LvBlock (cfg : Config) (pl : Planned) (st : Stocks) : Stocks × ℚ :=
  let s3_lv_cap := max 0 cfg.l3_cap
  let target_s3_lv_base :=
    min INVENTORY_CAP (pl.required_s3_lv + pl.planned_lv * RESERVATION_BUFFER_DAYS)
  let current_s3_lv := st.s3_LV
  let lv_needed_for_stock := max 0 (target_s3_lv_base - current_s3_lv)
  let lv_for_stock :=
    min lv_needed_for_stock (min s3_lv_cap (max 0 (INVENTORY_CAP - current_s3_lv)))
  if lv_for_stock > 0 then ({ st with s3_LV := st.s3_LV + lv_for_stock }, lv_for_stock)
  else (st, 0)

/-- S3 LLV replenishment (lines 675-690); the buffer adds the Pellet-A
safety floor while Pellet A still has remaining target. -/
def llvBlock (cfg : Config) (pl : Planned) (c_left : ℚ) (st : Stocks) : Stocks × ℚ :=
  let s3_llv_cap := cfg.l2_cap
  let llv_buffer := if c_left > 0 then LLV_SAFETY_STOCK_FOR_C else 0
  let target_s3_llv :=
    min INVENTORY_CAP
      (pl.required_s3_llv + pl.planned_llv * RESERVATION_BUFFER_DAYS + llv_buffer)
  let current_s3_llv := st.s3_LLV
  if current_s3_llv < target_s3_llv then
    let produce_s3_llv :=
      min (target_s3_llv - current_s3_llv)
        (min (max 0 s3_llv_cap) (INVENTORY_CAP - current_s3_llv))
    if produce_s3_llv > 0 then
      ({ st with s3_LLV := st.s3_LLV + produce_s3_llv }, produce_s3_llv)
    else (st, 0)
  else (st, 0)

structure NP3Out where
  stocks : Stocks
  np3_produced : ℚ
  lv_for_np3 : ℚ
  np3_target_level : ℚ
  deriving DecidableEq

/-- The NP3 target stock level of the day: raised to at least the
pre-campaign minimum and the batch size while Pellet B still has
remaining target, capped at the NP3 ceiling. -/
def np3TargetLevel (pl : Planned) (f_left : ℚ) : ℚ :=
  let level0 := pl.required_np3 + pl.planned_f * RESERVATION_BUFFER_DAYS
  let level1 :=
    if f_left > 0 then
      max (max level0 NP3_MIN_STOCK_BEFORE_CAMPAIGN) NP3_TARGET_BATCH_PRODUCTION_SIZE
    else level0
  min NP3_MAX_INV level1

/-- NP3 campaign block (lines 692-721): NP3 is produced as a byproduct of
extra LV production at the fixed conversion rate.  The source also
updates `remaining_lv_capacity` / `remaining_lv_inventory_room` after the
deposit, but nothing reads them afterwards. -/
def np3Block (pl : Planned) (f_left : ℚ)
    (remaining_lv_capacity remaining_lv_inventory_room : ℚ) (st : Stocks) : NP3Out :=
  let np3_cap0 := max 0 NP3_TARGET_BATCH_PRODUCTION_SIZE
  let np3_target_level := np3TargetLevel pl f_left
  let current_np3 := st.s3_NP3
  let np3_deficit := max 0 (np3_target_level - current_np3)
  let np3_capacity := min np3_cap0 (max 0 (NP3_MAX_INV - current_np3))
  let potential_np3 := min np3_deficit np3_capacity
  if potential_np3 > 0 ∧ NP3_PRODUCTION_RATE_IN_CAMPAIGN > 0 ∧
      remaining_lv_capacity > 0 ∧ remaining_lv_inventory_room > 0 then
    let lv_capacity_for_np3 := min remaining_lv_capacity remaining_lv_inventory_room
    let max_np3_based_on_lv := lv_capacity_for_np3 * NP3_PRODUCTION_RATE_IN_CAMPAIGN
    let np3_produced := min potential_np3 max_np3_based_on_lv
    if np3_produced > 0 then
      let lv_for_np3 := np3_produced / NP3_PRODUCTION_RATE_IN_CAMPAIGN
      { stocks :=
          { st with s3_LV := st.s3_LV + lv_for_np3, s3_NP3 := st.s3_NP3 + np3_produced }
        np3_produced := np3_produced, lv_for_np3 := lv_for_np3
        np3_target_level := np3_target_level }
    else
      { stocks := st, np3_produced := 0, lv_for_np3 := 0
        np3_target_level := np3_target_level }
  else
    { stocks := st, np3_produced := 0, lv_for_np3 := 0
      np3_target_level := np3_target_level }

/-- S1 HV replenishment (lines 723-737). -/
def hvBlock (cfg : Config) (pl : Planned) (st : Stocks) : Stocks × ℚ :=
  let hv_capacity := cfg.s1_hv_max_capa
  let target_s1_hv :=
    min INVENTORY_CAP (pl.required_s1_hv + pl.planned_hv * RESERVATION_BUFFER_DAYS)
  let current_s1_hv := st.s1_HV
  if current_s1_hv < target_s1_hv then
    let produce_hv :=
      min (target_s1_hv - current_s1_hv)
        (min (max 0 hv_capacity) (INVENTORY_CAP - current_s1_hv))
    if produce_hv > 0 then ({ st with s1_HV := st.s1_HV + produce_hv }, produce_hv)
    else (st, 0)
  else (st, 0)

/-- The whole replenishment phase of one day, in source order:
S2 LV input, ordinary S3 LV, S3 LLV, the NP3 campaign (whose LV-room and
LV-capacity leftovers are computed right after the ordinary LV block),
then S1 HV. -/
def replenishDay (cfg : Config) (pl : Planned) (s : SimState) : SimState × RawProd :=
  let r2 := s2Block cfg pl s.stocks
  let rLv := s3LvBlock cfg pl r2.1
  let remaining_lv_capacity := max 0 (max 0 cfg.l3_cap - rLv.2)
  let remaining_lv_inventory_room := max 0 (INVENTORY_CAP - rLv.1.s3_LV)
  let rLlv := llvBlock cfg pl (s.product_status .C_PELLET).left rLv.1
  let o := np3Block pl (s.product_status .F_PELLET).left
    remaining_lv_capacity remaining_lv_inventory_room rLlv.1
  let rHv := hvBlock cfg pl o.stocks
  ({ s with stocks := rHv.1 },
   { s3_LV_prod := rLv.2 + o.lv_for_np3, LLV_prod := rLlv.2, NP3_prod := o.np3_produced
     HV_prod := rHv.2, s2_LV_input := r2.2 })

/-! ### Allocation phase -/

/-- Result of one pool-consuming allocation step. -/
structure StepOut where
  capacity : ℚ
  packed : ℚ
  remaining : ℚ
  state : SimState

/-- The H/G pattern: capacity is the pool remainder, optionally capped by
the product's daily limit; a positive allocation consumes the pool and
counts a mode switch. -/
def poolStep (pid : ProductId) (remaining daily : ℚ) (s : SimState) : StepOut :=
  let capacity := if daily > 0 then min remaining daily else remaining
  let r := schedule_product pid capacity s
  { capacity := capacity, packed := r.1
    remaining := if 0 < r.1 then max 0 (remaining - r.1) else remaining
    state := if 0 < r.1 then { r.2 with switches := r.2.switches + 1 } else r.2 }

/-- The LV/LLV granule pattern: capacity is
`min(pool remainder, remaining target)`. -/
def granStep (pid : ProductId) (remaining : ℚ) (s : SimState) : StepOut :=
  let capacity := min remaining (s.product_status pid).left
  let r := schedule_product pid capacity s
  { capacity := capacity, packed := r.1
    remaining := if 0 < r.1 then max 0 (remaining - r.1) else remaining
    state := if 0 < r.1 then { r.2 with switches := r.2.switches + 1 } else r.2 }

/-- The inline S1 HV direct-pack block (lines 756-769): packs
`min(HV stock, pool remainder (∧ the HV max))`, with no zero-means-uncapped
special case. -/
def hvPackStep (cfg : Config) (remaining : ℚ) (s : SimState) : StepOut :=
  let hv_available := s.stocks.s1_HV
  let capacity :=
    if cfg.s1_hv_max_capa > 0 then min remaining cfg.s1_hv_max_capa else remaining
  let hv_amount := max 0 (min hv_available capacity)
  let s0 := updateStatus s .HV_PACK
    { s.product_status .HV_PACK with packed_today := hv_amount }
  let s1 :=
    if 0 < hv_amount then
      { updateStatus s0 .HV_PACK
          { s0.product_status .HV_PACK with
            packed_sum := (s0.product_status .HV_PACK).packed_sum + hv_amount } with
        stocks := { s0.stocks with s1_HV := max 0 (s0.stocks.s1_HV - hv_amount) }
        switches := s0.switches + 1 }
    else s0
  { capacity := capacity, packed := hv_amount
    remaining := if 0 < hv_amount then max 0 (remaining - hv_amount) else remaining
    state := s1 }

/-- All computed values of the allocation phase of one day (packed
amounts, the capacity limit each product was scheduled with, final state). -/
structure AllocOut where
  state : SimState
  h_capacity : ℚ
  g_capacity : ℚ
  hv_capacity : ℚ
  f_capacity : ℚ
  c_capacity : ℚ
  lv_capacity : ℚ
  llv_capacity : ℚ
  packed_h : ℚ
  packed_g : ℚ
  hv_amount : ℚ
  packed_f : ℚ
  packed_c : ℚ
  packed_lv : ℚ
  packed_llv : ℚ

/-- The seven allocation steps of one day, in source priority order:
H, G, the inline HV direct pack, F, C, LV, LLV.  F and C use the
`poolStep` capacity computation against their own line capacities (C has
no daily-limit key, hence the `0` limit argument, which `poolStep`
ignores exactly as the source does). -/
def allocateDay (cfg : Config) (s : SimState) : AllocOut :=
  let rH := poolStep .H_PELLET cfg.s1s2_pack_capa cfg.h_daily s
  let rG := poolStep .G_PELLET rH.remaining cfg.g_daily rH.state
  let rHV := hvPackStep cfg rG.remaining rG.state
  let rF := poolStep .F_PELLET cfg.f_line_capa cfg.f_daily rHV.state
  let rC := poolStep .C_PELLET cfg.c_line_capa 0 rF.state
  let rLV := granStep .LV_PACK cfg.granule_line_capa rC.state
  let rLLV := granStep .LLV_PACK rLV.remaining rLV.state
  { state := rLLV.state
    h_capacity := rH.capacity, g_capacity := rG.capacity, hv_capacity := rHV.capacity
    f_capacity := rF.capacity, c_capacity := rC.capacity
    lv_capacity := rLV.capacity, llv_capacity := rLLV.capacity
    packed_h := rH.packed, packed_g := rG.packed, hv_amount := rHV.packed
    packed_f := rF.packed, packed_c := rC.packed
    packed_lv := rLV.packed, packed_llv := rLLV.packed }

/-! ### The day loop -/

/-- `status["packed_today"] = 0.0` for every product, at the top of a day. -/
def resetPackedToday (s : SimState) : SimState :=
  { s with product_status := fun pid => { s.product_status pid with packed_today := 0 } }

/-- One emitted day row: per-product today quantities, the end-of-day
stock snapshot and the raw-production tallies. -/
structure DayRecord where
  c_today : ℚ
  f_today : ℚ
  h_today : ℚ
  g_today : ℚ
  lv_today : ℚ
  llv_today : ℚ
  hv_today : ℚ
  stocks : Stocks
  raw : RawProd
  deriving DecidableEq, Inhabited

/-- One iteration of the day loop body: reset, plan, replenish, allocate,
emit the day record. -/
def runDay (cfg : Config) (s : SimState) : DayRecord × SimState :=
  let s0 := resetPackedToday s
  let pl := planDay cfg s0
  let r := replenishDay cfg pl s0
  let a := allocateDay cfg r.1
  let e := a.state
  ({ c_today := (e.product_status .C_PELLET).packed_today
     f_today := (e.product_status .F_PELLET).packed_today
     h_today := (e.product_status .H_PELLET).packed_today
     g_today := (e.product_status .G_PELLET).packed_today
     lv_today := (e.product_status .LV_PACK).packed_today
     llv_today := (e.product_status .LLV_PACK).packed_today
     hv_today := (e.product_status .HV_PACK).packed_today
     stocks := e.stocks
     raw := r.2 }, e)

/-- The products carrying a `target_key` (all but the direct pack), in
`products_db` insertion order: the early-exit test ranges over these. -/
def targetedPids : List ProductId :=
  [.C_PELLET, .F_PELLET, .H_PELLET, .G_PELLET, .LV_PACK, .LLV_PACK]

/-- `any(status["left"] > 0.001 …)` over the targeted products. -/
def remaining_targets (s : SimState) : Bool :=
  targetedPids.any (fun pid => decide ((s.product_status pid).left > EPS))

/-- The day loop: up to `n` more days, breaking after a day on which no
targeted product has more than `EPS` left. -/
def runDaysAux (cfg : Config) : Nat → SimState → List DayRecord × SimState
  | 0, s => ([], s)
  | n+1, s =>
    let r := runDay cfg s
    if remaining_targets r.2 then
      let rest := runDaysAux cfg n r.2
      (r.1 :: rest.1, rest.2)
    else ([r.1], r.2)

/-- The whole simulated run: emitted day records and the final state. -/
def runAll (cfg : Config) : List DayRecord × SimState :=
  runDaysAux cfg DAYS (initState cfg)

/-- Iterating the day body (with no early exit), for stating per-day
invariants. -/
def iterDays (cfg : Config) : Nat → SimState → SimState
  | 0, s => s
  | n+1, s => iterDays cfg n (runDay cfg s).2

/-- State after `n` simulated days from the initial state. -/
def stateAfter (cfg : Config) (n : Nat) : SimState :=
  iterDays cfg n (initState cfg)

/-! ### Run summary -/

/-- `product_status` iteration order of the summary loop. -/
def pidOrder : List ProductId :=
  [.C_PELLET, .F_PELLET, .H_PELLET, .G_PELLET, .LV_PACK, .LLV_PACK, .HV_PACK]

/-- The end-of-run summary figures. -/
structure RunSummary where
  rows : List (ℚ × ℚ × ℚ)
  total_goals_sum : ℚ
  relevant_produced_sum : ℚ
  all_achieved : Bool
  overall_achievement_rate : ℚ
  switches : Nat
  deriving DecidableEq

/-- The summary computed after the loop (lines 908-961): per product
`(goal, max 0 left, packed_sum)`; sums and the achievement rate range
over positive-target products only. -/
def summaryOf (cfg : Config) : RunSummary :=
  let s := (runAll cfg).2
  let rows := pidOrder.map (fun pid =>
    ((s.product_status pid).goal_orig,
     max 0 (s.product_status pid).left,
     (s.product_status pid).packed_sum))
  let total_goals_sum := rows.foldl (fun acc r => if r.1 > 0 then acc + r.1 else acc) (0 : ℚ)
  let relevant_produced_sum :=
    rows.foldl (fun acc r => if r.1 > 0 then acc + r.2.2 else acc) (0 : ℚ)
  let all_achieved := rows.all (fun r => ! decide (r.1 > 0 ∧ r.2.1 > EPS))
  let overall_achievement_rate :=
    if total_goals_sum > 0 then relevant_produced_sum / total_goals_sum * 100
    else if relevant_produced_sum > 0 then 100 else 0
  { rows := rows, total_goals_sum := total_goals_sum
    relevant_produced_sum := relevant_produced_sum
    all_achieved := all_achieved
    overall_achievement_rate := overall_achievement_rate
    switches := s.switches }

/-! ### Concrete scenario inputs -/

/-- H target 100 and G target 50 against a shared S1+S2 pool of 100:
H exhausts the pool on day 1 and G is then scheduled with capacity 0. -/
def cfg_pool : Config := { h_goal := 100, g_goal := 50, s1s2_pack_capa := 100 }

/-- A negative C target, with the HV direct pack still producing. -/
def cfgNeg : Config := { c_goal := -5, s1s2_pack_capa := 100, s1_hv_max_capa := 400 }

/-- All targets 0 while the untargeted HV direct pack still produces. -/
def cfg0 : Config := { s1s2_pack_capa := 100, s1_hv_max_capa := 400 }

/-- An H target needing exactly two days against the pool ceiling. -/
def cfgW : Config := { h_goal := 150, s1s2_pack_capa := 100, s1_hv_max_capa := 400 }

/-- An H target of half the pool ceiling: every step's capacity stays
positive or its draw is 0. -/
def cfgHalf : Config := { h_goal := 50, s1s2_pack_capa := 100 }

/-- A C target with nothing else configured. -/
def cfgTen : Config := { c_goal := 50 }

/-- The state at the top of day 1's allocation phase under `cfg_pool`. -/
def preAllocPool : SimState :=
  (replenishDay cfg_pool (planDay cfg_pool (resetPackedToday (initState cfg_pool)))
    (resetPackedToday (initState cfg_pool))).1

/-- The state G pellet is scheduled from on day 1 under `cfg_pool`,
after H pellet's draw from the shared pool. -/
def gStepState : SimState :=
  (poolStep .H_PELLET cfg_pool.s1s2_pack_capa cfg_pool.h_daily preAllocPool).state

/-- A state whose S3 LLV stock sits exactly at the C safety floor. -/
def sFloor : SimState :=
  { initState cfgTen with
    stocks := { (initState cfgTen).stocks with s3_LLV := 50 } }

/-- A demand projection for exercising the NP3 campaign block. -/
def plC7 : Planned := planDay cfgW (initState cfgW)

/-- A stock ledger whose NP3 level is below the pre-campaign minimum. -/
def stC7 : Stocks := { (initState cfgW).stocks with s3_NP3 := 40 }

/-! ### Basic facts about `schedule_product` -/

lemma foldl_min_step_le (pid : ProductId) (st : Stocks) :
    ∀ (l : List (MaterialVar × ℚ)) (seed : ℚ),
      l.foldl (fun acc ing =>
        let available_qty := availFor pid st ing.1
        if ing.2 > 0 then min acc (available_qty / ing.2) else acc) seed ≤ seed := by
  intro l
  induction l with
  | nil => intro seed; exact le_refl _
  | cons a l ih =>
    intro seed
    refine le_trans (ih _) ?_
    dsimp only
    split
    · exact min_le_left _ _
    · exact le_refl _

lemma sched_HV (c : ℚ) (s : SimState) : schedule_product .HV_PACK c s = (0, s) := rfl

lemma sched_of_nonpos (pid : ProductId) (c : ℚ) (s : SimState)
    (h : (s.product_status pid).left ≤ 0) :
    schedule_product pid c s = (0, s) := by
  simp only [schedule_product]
  split_ifs with h1 h2 <;> first | rfl | exact absurd h h2

lemma sched_fst_nonneg (pid : ProductId) (c : ℚ) (s : SimState) :
    0 ≤ (schedule_product pid c s).1 := by
  by_cases h1 : pid = .HV_PACK
  · subst h1; rw [sched_HV]
  by_cases h2 : (s.product_status pid).left ≤ 0
  · rw [sched_of_nonpos pid c s h2]
  simp only [schedule_product, if_neg h1, if_neg h2]
  split_ifs <;> first | exact le_refl 0 | exact le_max_left _ _

lemma sched_fst_le_cap (pid : ProductId) (c : ℚ) (s : SimState) (hc : 0 < c) :
    (schedule_product pid c s).1 ≤ c := by
  by_cases h1 : pid = .HV_PACK
  · subst h1; rw [sched_HV]; exact hc.le
  by_cases h2 : (s.product_status pid).left ≤ 0
  · rw [sched_of_nonpos pid c s h2]; exact hc.le
  simp only [schedule_product, if_neg h1, if_neg h2]
  split_ifs <;>
    first
      | exact hc.le
      | exact max_le hc.le (le_trans (min_le_left _ _) (min_le_right _ _))
      | exact absurd hc (by assumption)

lemma sched_fst_le_left (pid : ProductId) (c : ℚ) (s : SimState) :
    (schedule_product pid c s).1 ≤ max 0 (s.product_status pid).left := by
  by_cases h1 : pid = .HV_PACK
  · subst h1; rw [sched_HV]; exact le_max_left _ _
  by_cases h2 : (s.product_status pid).left ≤ 0
  · rw [sched_of_nonpos pid c s h2]; exact le_max_left _ _
  simp only [schedule_product, if_neg h1, if_neg h2]
  split_ifs <;>
    first
      | exact le_max_left _ _
      | exact max_le (le_max_left _ _) (le_trans (min_le_left _ _)
          (le_trans (min_le_left _ _) (le_max_right _ _)))
      | exact max_le (le_max_left _ _) (le_trans (min_le_left _ _) (le_max_right _ _))

lemma sched_status_ne (pid : ProductId) (c : ℚ) (s : SimState) (q : ProductId)
    (hq : q ≠ pid) :
    ((schedule_product pid c s).2).product_status q = s.product_status q := by
  by_cases h1 : pid = .HV_PACK
  · subst h1; rw [sched_HV]
  by_cases h2 : (s.product_status pid).left ≤ 0
  · rw [sched_of_nonpos pid c s h2]
  simp only [schedule_product, if_neg h1, if_neg h2]
  split_ifs <;> simp [updateStatus, hq]

/-- Characterization of the scheduled product's own status entry:
rewritten exactly when the produced amount is positive. -/
lemma sched_status_self (pid : ProductId) (c : ℚ) (s : SimState) :
    (schedule_product pid c s).2.product_status pid =
      if 0 < (schedule_product pid c s).1 then
        { s.product_status pid with
          packed_today := (schedule_product pid c s).1
          left := max 0 ((s.product_status pid).left - (schedule_product pid c s).1)
          packed_sum := (s.product_status pid).packed_sum + (schedule_product pid c s).1 }
      else s.product_status pid := by
  by_cases h1 : pid = .HV_PACK
  · subst h1; rw [sched_HV]; simp
  by_cases h2 : (s.product_status pid).left ≤ 0
  · rw [sched_of_nonpos pid c s h2]; simp
  simp only [schedule_product, if_neg h1, if_neg h2]
  split_ifs <;> simp_all [updateStatus, not_le]

/-- The stock ledger after a `schedule_product` call: all recipe
ingredients are debited exactly when the produced amount is positive. -/
lemma sched_stocks (pid : ProductId) (c : ℚ) (s : SimState) :
    (schedule_product pid c s).2.stocks =
      if 0 < (schedule_product pid c s).1 then
        (recipe pid).foldl
          (fun st ing => setStock st ing.1
            (max 0 (getStock st ing.1 - ing.2 * (schedule_product pid c s).1)))
          s.stocks
      else s.stocks := by
  by_cases h1 : pid = .HV_PACK
  · subst h1; rw [sched_HV]; simp
  by_cases h2 : (s.product_status pid).left ≤ 0
  · rw [sched_of_nonpos pid c s h2]; simp
  simp only [schedule_product, if_neg h1, if_neg h2]
  split_ifs <;> simp_all [updateStatus, not_le]

lemma sched_goal_orig (pid : ProductId) (c : ℚ) (s : SimState) (q : ProductId) :
    ((schedule_product pid c s).2.product_status q).goal_orig =
      (s.product_status q).goal_orig := by
  rcases eq_or_ne q pid with rfl | hq
  · rw [sched_status_self]
    split_ifs with h <;> rfl
  · rw [sched_status_ne pid c s q hq]

lemma sched_left_le (pid : ProductId) (c : ℚ) (s : SimState) (q : ProductId) :
    ((schedule_product pid c s).2.product_status q).left ≤ (s.product_status q).left := by
  rcases eq_or_ne q pid with rfl | hq
  · rw [sched_status_self]
    split_ifs with h
    · have hnn := sched_fst_nonneg q c s
      rcases le_or_lt (s.product_status q).left 0 with h0 | h0
      · rw [sched_of_nonpos q c s h0] at h
        exact absurd h (lt_irrefl 0)
      · show max 0 ((s.product_status q).left - (schedule_product q c s).1) ≤
          (s.product_status q).left
        exact max_le h0.le (by linarith)
    · exact le_refl _
  · rw [sched_status_ne pid c s q hq]

lemma sched_switches (pid : ProductId) (c : ℚ) (s : SimState) :
    (schedule_product pid c s).2.switches = s.switches := by
  by_cases h1 : pid = .HV_PACK
  · subst h1; rw [sched_HV]
  by_cases h2 : (s.product_status pid).left ≤ 0
  · rw [sched_of_nonpos pid c s h2]
  simp only [schedule_product, if_neg h1, if_neg h2]
  split_ifs <;> simp [updateStatus]

lemma sched_keep (pid : ProductId) (c : ℚ) (s : SimState) (q : ProductId)
    (hq : (s.product_status q).left ≤ 0) :
    (schedule_product pid c s).2.product_status q = s.product_status q := by
  rcases eq_or_ne q pid with rfl | h
  · rw [sched_of_nonpos q c s hq]
  · exact sched_status_ne pid c s q h

/-! ### The stock ledger invariant -/

/-- One key per `(silo, material)` entry of the `stocks` dictionary. -/
inductive StockKey
  | s1HV | s1LV | s1LLV | s2HV | s2LV | s2LLV | s3HV | s3LV | s3LLV | s3NP3
  deriving DecidableEq

def stockVal (st : Stocks) : StockKey → ℚ
  | .s1HV => st.s1_HV
  | .s1LV => st.s1_LV
  | .s1LLV => st.s1_LLV
  | .s2HV => st.s2_HV
  | .s2LV => st.s2_LV
  | .s2LLV => st.s2_LLV
  | .s3HV => st.s3_HV
  | .s3LV => st.s3_LV
  | .s3LLV => st.s3_LLV
  | .s3NP3 => st.s3_NP3

/-- The capacity ceiling of each stock: the global cap, except the
Site-2 LV silo (`SILO2_CAP`) and the Site-3 NP3 store (`NP3_MAX_INV`). -/
def stockCap : StockKey → ℚ
  | .s2LV => SILO2_CAP
  | .s3NP3 => NP3_MAX_INV
  | _ => INVENTORY_CAP

/-- Every stock is non-negative and below its ceiling. -/
def StockInv (st : Stocks) : Prop :=
  ∀ k, 0 ≤ stockVal st k ∧ stockVal st k ≤ stockCap k

/-- The stock key a recipe material reference resolves to. -/
def keyOf : MaterialVar → StockKey
  | .s1_HV => .s1HV
  | .s2_LV => .s2LV
  | .LV => .s3LV
  | .LLV => .s3LLV
  | .NP3 => .s3NP3

lemma getStock_eq (st : Stocks) (m : MaterialVar) :
    getStock st m = stockVal st (keyOf m) := by
  cases m <;> rfl

lemma setStock_val (st : Stocks) (m : MaterialVar) (v : ℚ) (k : StockKey) :
    stockVal (setStock st m v) k = if k = keyOf m then v else stockVal st k := by
  cases m <;> cases k <;> simp [setStock, stockVal, keyOf]

lemma setStock_inv (st : Stocks) (m : MaterialVar) (v : ℚ) (h : StockInv st)
    (h0 : 0 ≤ v) (hv : v ≤ getStock st m) : StockInv (setStock st m v) := by
  intro k
  rw [setStock_val]
  split_ifs with hk
  · subst hk
    exact ⟨h0, le_trans hv (by rw [getStock_eq]; exact (h (keyOf m)).2)⟩
  · exact h k

lemma recipe_qty_nonneg (pid : ProductId) : ∀ ing ∈ recipe pid, 0 ≤ ing.2 := by
  cases pid <;> (intro ing hmem; fin_cases hmem <;> norm_num)

lemma withdraw_foldl_inv (p : ℚ) :
    ∀ (l : List (MaterialVar × ℚ)) (st : Stocks), StockInv st → 0 ≤ p →
      (∀ x ∈ l, 0 ≤ x.2) →
      StockInv (l.foldl
        (fun st ing => setStock st ing.1 (max 0 (getStock st ing.1 - ing.2 * p))) st) := by
  intro l
  induction l with
  | nil => intro st h _ _; exact h
  | cons a l ih =>
    intro st h hp hl
    have hq : 0 ≤ a.2 := hl a (List.mem_cons_self a l)
    have h0 : 0 ≤ getStock st a.1 := by rw [getStock_eq]; exact (h (keyOf a.1)).1
    refine ih _ ?_ hp (fun x hx => hl x (List.mem_cons_of_mem a hx))
    exact setStock_inv _ _ _ h (le_max_left _ _) (max_le h0 (by nlinarith))

lemma sched_stockInv (pid : ProductId) (c : ℚ) (s : SimState)
    (h : StockInv s.stocks) : StockInv (schedule_product pid c s).2.stocks := by
  rw [sched_stocks]
  split_ifs with hp
  · exact withdraw_foldl_inv _ _ _ h (sched_fst_nonneg pid c s) (recipe_qty_nonneg pid)
  · exact h

/-! ### The product-state invariant -/

/-- The per-product state invariant: `goal_orig` is the configured
target, `packed_sum` is non-negative, `left` is `max 0 (goal − packed_sum)`,
and for every targeted product the unclamped identity
`packed_sum + left = goal` holds as well. -/
def GoalInv (cfg : Config) (s : SimState) : Prop :=
  ∀ pid, (s.product_status pid).goal_orig = goalOf cfg pid ∧
    0 ≤ (s.product_status pid).packed_sum ∧
    (s.product_status pid).left =
      max 0 (goalOf cfg pid - (s.product_status pid).packed_sum) ∧
    (pid ≠ .HV_PACK →
      (s.product_status pid).packed_sum + (s.product_status pid).left = goalOf cfg pid)

lemma initState_goalInv (cfg : Config) (h : ∀ pid, 0 ≤ goalOf cfg pid) :
    GoalInv cfg (initState cfg) := by
  intro pid
  refine ⟨rfl, le_refl 0, ?_, fun _ => zero_add _⟩
  show goalOf cfg pid = max 0 (goalOf cfg pid - 0)
  rw [sub_zero, max_eq_right (h pid)]

lemma sched_goalInv {cfg : Config} (pid : ProductId) (c : ℚ) (s : SimState)
    (h : GoalInv cfg s) : GoalInv cfg (schedule_product pid c s).2 := by
  intro q
  rcases eq_or_ne q pid with rfl | hq
  · rw [sched_status_self]
    split_ifs with hp
    · obtain ⟨hg, hps, hmax, hadd⟩ := h q
      have hnn := sched_fst_nonneg q c s
      have hle := sched_fst_le_left q c s
      rcases le_or_lt (s.product_status q).left 0 with h0 | h0
      · rw [sched_of_nonpos q c s h0] at hp
        exact absurd hp (lt_irrefl 0)
      have hdiff : goalOf cfg q - (s.product_status q).packed_sum =
          (s.product_status q).left := by
        rcases le_or_lt (goalOf cfg q - (s.product_status q).packed_sum) 0 with hd | hd
        · rw [hmax] at h0
          exact absurd (max_eq_left hd ▸ h0) (lt_irrefl 0)
        · rw [hmax, max_eq_right hd.le]
      have hple : (schedule_product q c s).1 ≤ (s.product_status q).left := by
        have := sched_fst_le_left q c s
        rwa [max_eq_right h0.le] at this
      refine ⟨hg, by simp only []; linarith, ?_, fun _ => ?_⟩
      · show max 0 ((s.product_status q).left - (schedule_product q c s).1) =
          max 0 (goalOf cfg q -
            ((s.product_status q).packed_sum + (schedule_product q c s).1))
        congr 1
        linarith
      · show (s.product_status q).packed_sum + (schedule_product q c s).1 +
            max 0 ((s.product_status q).left - (schedule_product q c s).1) = goalOf cfg q
        rw [max_eq_right (by linarith)]
        linarith
    · exact h q
  · rw [sched_status_ne pid c s q hq]
    exact h q

/-! ### Replenishment blocks preserve the stock invariant -/

lemma stockVal_s2LV_set (st : Stocks) (v : ℚ) (k : StockKey) :
    stockVal { st with s2_LV := v } k = if k = .s2LV then v else stockVal st k := by
  cases k <;> simp [stockVal]

lemma stockVal_s3LV_set (st : Stocks) (v : ℚ) (k : StockKey) :
    stockVal { st with s3_LV := v } k = if k = .s3LV then v else stockVal st k := by
  cases k <;> simp [stockVal]

lemma stockVal_s3LLV_set (st : Stocks) (v : ℚ) (k : StockKey) :
    stockVal { st with s3_LLV := v } k = if k = .s3LLV then v else stockVal st k := by
  cases k <;> simp [stockVal]

lemma stockVal_s1HV_set (st : Stocks) (v : ℚ) (k : StockKey) :
    stockVal { st with s1_HV := v } k = if k = .s1HV then v else stockVal st k := by
  cases k <;> simp [stockVal]

lemma stockVal_np3_set (st : Stocks) (v w : ℚ) (k : StockKey) :
    stockVal { st with s3_LV := v, s3_NP3 := w } k =
      if k = .s3LV then v else if k = .s3NP3 then w else stockVal st k := by
  cases k <;> simp [stockVal]

/-- Generic clamped deposit: adding `min a (min b (cap - x))` to a stock
`x ∈ [0, cap]` stays in `[0, cap]` when the deposit is positive. -/
lemma deposit_bounds {x cap a b : ℚ} (hx0 : 0 ≤ x) (hxc : x ≤ cap)
    (hp : 0 < min a (min b (cap - x))) :
    0 ≤ x + min a (min b (cap - x)) ∧ x + min a (min b (cap - x)) ≤ cap := by
  have hle : min a (min b (cap - x)) ≤ cap - x :=
    le_trans (min_le_right _ _) (min_le_right _ _)
  exact ⟨by linarith, by linarith⟩

/-- Variant with the headroom wrapped in `max 0`. -/
lemma deposit_bounds0 {x cap a b : ℚ} (hx0 : 0 ≤ x) (hxc : x ≤ cap)
    (hp : 0 < min a (min b (max 0 (cap - x)))) :
    0 ≤ x + min a (min b (max 0 (cap - x))) ∧
      x + min a (min b (max 0 (cap - x))) ≤ cap := by
  have hle : min a (min b (max 0 (cap - x))) ≤ max 0 (cap - x) :=
    le_trans (min_le_right _ _) (min_le_right _ _)
  rcases le_or_lt (cap - x) 0 with hr | hr
  · rw [max_eq_left hr] at hp hle
    exact absurd (lt_of_lt_of_le hp hle) (lt_irrefl 0)
  · rw [max_eq_right hr.le] at hp hle ⊢
    constructor <;> linarith

lemma s2_deposit_inv (st : Stocks) (h : StockInv st) (a b : ℚ)
    (hp : 0 < min a (min b (SILO2_CAP - st.s2_LV))) :
    StockInv { st with s2_LV := st.s2_LV + min a (min b (SILO2_CAP - st.s2_LV)) } := by
  have h2 := h .s2LV
  simp only [stockVal, stockCap] at h2
  intro k
  rw [stockVal_s2LV_set]
  split_ifs with hk
  · subst hk
    simp only [stockCap]
    exact deposit_bounds h2.1 h2.2 hp
  · exact h k

lemma s3lv_deposit_inv (st : Stocks) (h : StockInv st) (a b : ℚ)
    (hp : 0 < min a (min b (max 0 (INVENTORY_CAP - st.s3_LV)))) :
    StockInv { st with
      s3_LV := st.s3_LV + min a (min b (max 0 (INVENTORY_CAP - st.s3_LV))) } := by
  have h2 := h .s3LV
  simp only [stockVal, stockCap] at h2
  intro k
  rw [stockVal_s3LV_set]
  split_ifs with hk
  · subst hk
    simp only [stockCap]
    exact deposit_bounds0 h2.1 h2.2 hp
  · exact h k

lemma llv_deposit_inv (st : Stocks) (h : StockInv st) (a b : ℚ)
    (hp : 0 < min a (min b (INVENTORY_CAP - st.s3_LLV))) :
    StockInv { st with
      s3_LLV := st.s3_LLV + min a (min b (INVENTORY_CAP - st.s3_LLV)) } := by
  have h2 := h .s3LLV
  simp only [stockVal, stockCap] at h2
  intro k
  rw [stockVal_s3LLV_set]
  split_ifs with hk
  · subst hk
    simp only [stockCap]
    exact deposit_bounds h2.1 h2.2 hp
  · exact h k

lemma hv_deposit_inv (st : Stocks) (h : StockInv st) (a b : ℚ)
    (hp : 0 < min a (min b (INVENTORY_CAP - st.s1_HV))) :
    StockInv { st with
      s1_HV := st.s1_HV + min a (min b (INVENTORY_CAP - st.s1_HV)) } := by
  have h2 := h .s1HV
  simp only [stockVal, stockCap] at h2
  intro k
  rw [stockVal_s1HV_set]
  split_ifs with hk
  · subst hk
    simp only [stockCap]
    exact deposit_bounds h2.1 h2.2 hp
  · exact h k

lemma np3_deposit_inv (st : Stocks) (h : StockInv st) (lv np3 : ℚ)
    (hlv0 : 0 ≤ lv) (hnp0 : 0 ≤ np3)
    (hlv : lv ≤ max 0 (INVENTORY_CAP - st.s3_LV))
    (hnp : np3 ≤ max 0 (NP3_MAX_INV - st.s3_NP3)) :
    StockInv { st with s3_LV := st.s3_LV + lv, s3_NP3 := st.s3_NP3 + np3 } := by
  have h3lv := h .s3LV
  have h3np := h .s3NP3
  simp only [stockVal, stockCap] at h3lv h3np
  intro k
  rw [stockVal_np3_set]
  split_ifs with hk1 hk2
  · subst hk1
    simp only [stockCap]
    refine ⟨by linarith, ?_⟩
    rcases le_or_lt (INVENTORY_CAP - st.s3_LV) 0 with hr | hr
    · rw [max_eq_left hr] at hlv
      linarith
    · rw [max_eq_right hr.le] at hlv
      linarith
  · subst hk2
    simp only [stockCap]
    refine ⟨by linarith, ?_⟩
    rcases le_or_lt (NP3_MAX_INV - st.s3_NP3) 0 with hr | hr
    · rw [max_eq_left hr] at hnp
      linarith
    · rw [max_eq_right hr.le] at hnp
      linarith
  · exact h k

lemma s2Block_stockInv (cfg : Config) (pl : Planned) (st : Stocks)
    (h : StockInv st) : StockInv (s2Block cfg pl st).1 := by
  simp only [s2Block]
  split_ifs <;> first | exact h | exact s2_deposit_inv st h _ _ (by assumption)

lemma s3LvBlock_stockInv (cfg : Config) (pl : Planned) (st : Stocks)
    (h : StockInv st) : StockInv (s3LvBlock cfg pl st).1 := by
  simp only [s3LvBlock]
  split_ifs <;> first | exact h | exact s3lv_deposit_inv st h _ _ (by assumption)

lemma llvBlock_stockInv (cfg : Config) (pl : Planned) (c_left : ℚ) (st : Stocks)
    (h : StockInv st) : StockInv (llvBlock cfg pl c_left st).1 := by
  simp only [llvBlock]
  split_ifs <;> first | exact h | exact llv_deposit_inv st h _ _ (by assumption)

lemma hvBlock_stockInv (cfg : Config) (pl : Planned) (st : Stocks)
    (h : StockInv st) : StockInv (hvBlock cfg pl st).1 := by
  simp only [hvBlock]
  split_ifs <;> first | exact h | exact hv_deposit_inv st h _ _ (by assumption)

lemma np3Block_stockInv (pl : Planned) (f_left rcap rroom : ℚ) (st : Stocks)
    (h : StockInv st) (hroom : rroom ≤ max 0 (INVENTORY_CAP - st.s3_LV)) :
    StockInv (np3Block pl f_left rcap rroom st).stocks := by
  simp only [np3Block]
  split
  · rename_i h1
    obtain ⟨hpot, hrate, hcap0, hroom0⟩ := h1
    split
    · rename_i h2
      refine np3_deposit_inv st h _ _ (div_nonneg h2.le hrate.le) h2.le ?_ ?_
      · exact le_trans ((div_le_iff hrate).mpr (min_le_right _ _))
          (le_trans (min_le_right _ _) hroom)
      · exact le_trans (min_le_left _ _)
          (le_trans (min_le_right _ _) (min_le_right _ _))
    · exact h
  · exact h

lemma llvBlock_s3LV (cfg : Config) (pl : Planned) (c_left : ℚ) (st : Stocks) :
    (llvBlock cfg pl c_left st).1.s3_LV = st.s3_LV := by
  simp only [llvBlock]
  split_ifs <;> rfl

lemma replenishDay_stockInv (cfg : Config) (pl : Planned) (s : SimState)
    (h : StockInv s.stocks) : StockInv (replenishDay cfg pl s).1.stocks := by
  simp only [replenishDay]
  refine hvBlock_stockInv cfg pl _ (np3Block_stockInv pl _ _ _ _ ?_ ?_)
  · exact llvBlock_stockInv cfg pl _ _
      (s3LvBlock_stockInv cfg pl _ (s2Block_stockInv cfg pl _ h))
  · rw [llvBlock_s3LV]

lemma replenishDay_status (cfg : Config) (pl : Planned) (s : SimState) :
    (replenishDay cfg pl s).1.product_status = s.product_status := rfl

lemma replenishDay_switches (cfg : Config) (pl : Planned) (s : SimState) :
    (replenishDay cfg pl s).1.switches = s.switches := rfl

lemma resetPackedToday_stocks (s : SimState) :
    (resetPackedToday s).stocks = s.stocks := rfl

/-! ### The allocation phase, step by step -/

lemma poolStep_state_status (pid : ProductId) (rem d : ℚ) (s : SimState)
    (q : ProductId) :
    (poolStep pid rem d s).state.product_status q =
      (schedule_product pid (if d > 0 then min rem d else rem) s).2.product_status q := by
  simp only [poolStep]
  split <;> split <;> rfl

lemma granStep_state_status (pid : ProductId) (rem : ℚ) (s : SimState)
    (q : ProductId) :
    (granStep pid rem s).state.product_status q =
      (schedule_product pid (min rem (s.product_status pid).left) s).2.product_status q := by
  simp only [granStep]
  split <;> rfl

lemma poolStep_state_stocks (pid : ProductId) (rem d : ℚ) (s : SimState) :
    (poolStep pid rem d s).state.stocks =
      (schedule_product pid (if d > 0 then min rem d else rem) s).2.stocks := by
  simp only [poolStep]
  split <;> split <;> rfl

lemma granStep_state_stocks (pid : ProductId) (rem : ℚ) (s : SimState) :
    (granStep pid rem s).state.stocks =
      (schedule_product pid (min rem (s.product_status pid).left) s).2.stocks := by
  simp only [granStep]
  split <;> rfl

lemma poolStep_goalInv {cfg : Config} (pid : ProductId) (rem d : ℚ) (s : SimState)
    (h : GoalInv cfg s) : GoalInv cfg (poolStep pid rem d s).state := by
  intro q
  rw [poolStep_state_status]
  exact sched_goalInv pid _ s h q

lemma granStep_goalInv {cfg : Config} (pid : ProductId) (rem : ℚ) (s : SimState)
    (h : GoalInv cfg s) : GoalInv cfg (granStep pid rem s).state := by
  intro q
  rw [granStep_state_status]
  exact sched_goalInv pid _ s h q

lemma poolStep_stockInv (pid : ProductId) (rem d : ℚ) (s : SimState)
    (h : StockInv s.stocks) : StockInv (poolStep pid rem d s).state.stocks := by
  rw [poolStep_state_stocks]
  exact sched_stockInv pid _ s h

lemma granStep_stockInv (pid : ProductId) (rem : ℚ) (s : SimState)
    (h : StockInv s.stocks) : StockInv (granStep pid rem s).state.stocks := by
  rw [granStep_state_stocks]
  exact sched_stockInv pid _ s h

lemma poolStep_left_le (pid : ProductId) (rem d : ℚ) (s : SimState) (q : ProductId) :
    ((poolStep pid rem d s).state.product_status q).left ≤ (s.product_status q).left := by
  rw [poolStep_state_status]
  exact sched_left_le pid _ s q

lemma granStep_left_le (pid : ProductId) (rem : ℚ) (s : SimState) (q : ProductId) :
    ((granStep pid rem s).state.product_status q).left ≤ (s.product_status q).left := by
  rw [granStep_state_status]
  exact sched_left_le pid _ s q

lemma poolStep_goal_orig (pid : ProductId) (rem d : ℚ) (s : SimState) (q : ProductId) :
    ((poolStep pid rem d s).state.product_status q).goal_orig =
      (s.product_status q).goal_orig := by
  rw [poolStep_state_status]
  exact sched_goal_orig pid _ s q

lemma granStep_goal_orig (pid : ProductId) (rem : ℚ) (s : SimState) (q : ProductId) :
    ((granStep pid rem s).state.product_status q).goal_orig =
      (s.product_status q).goal_orig := by
  rw [granStep_state_status]
  exact sched_goal_orig pid _ s q

lemma poolStep_keep (pid : ProductId) (rem d : ℚ) (s : SimState) (q : ProductId)
    (hq : (s.product_status q).left ≤ 0) :
    (poolStep pid rem d s).state.product_status q = s.product_status q := by
  rw [poolStep_state_status]
  exact sched_keep pid _ s q hq

lemma granStep_keep (pid : ProductId) (rem : ℚ) (s : SimState) (q : ProductId)
    (hq : (s.product_status q).left ≤ 0) :
    (granStep pid rem s).state.product_status q = s.product_status q := by
  rw [granStep_state_status]
  exact sched_keep pid _ s q hq

/-! ### The HV direct-pack step -/

lemma hvPackStep_state_status_ne (cfg : Config) (rem : ℚ) (s : SimState)
    (q : ProductId) (hq : q ≠ .HV_PACK) :
    (hvPackStep cfg rem s).state.product_status q = s.product_status q := by
  simp only [hvPackStep]
  split <;> split <;> simp only [updateStatus] <;> simp [if_neg hq]

lemma hvPackStep_packed_nonneg (cfg : Config) (rem : ℚ) (s : SimState) :
    0 ≤ (hvPackStep cfg rem s).packed := by
  simp only [hvPackStep]
  exact le_max_left _ _

lemma hvPackStep_state_status_self (cfg : Config) (rem : ℚ) (s : SimState) :
    (hvPackStep cfg rem s).state.product_status .HV_PACK =
      if 0 < (hvPackStep cfg rem s).packed then
        { s.product_status .HV_PACK with
          packed_today := (hvPackStep cfg rem s).packed
          packed_sum :=
            (s.product_status .HV_PACK).packed_sum + (hvPackStep cfg rem s).packed }
      else
        { s.product_status .HV_PACK with packed_today := (hvPackStep cfg rem s).packed } := by
  simp only [hvPackStep]
  split <;> split <;> simp_all [updateStatus]

lemma hvPackStep_state_stocks (cfg : Config) (rem : ℚ) (s : SimState) :
    (hvPackStep cfg rem s).state.stocks =
      if 0 < (hvPackStep cfg rem s).packed then
        { s.stocks with s1_HV := max 0 (s.stocks.s1_HV - (hvPackStep cfg rem s).packed) }
      else s.stocks := by
  simp only [hvPackStep]
  split <;> split <;> simp_all [updateStatus]

lemma hvPackStep_goalInv {cfg : Config} (rem : ℚ) (s : SimState)
    (h : GoalInv cfg s) : GoalInv cfg (hvPackStep cfg rem s).state := by
  intro q
  rcases eq_or_ne q .HV_PACK with rfl | hq
  · rw [hvPackStep_state_status_self]
    obtain ⟨hg, hps, hmax, _⟩ := h .HV_PACK
    have hgoal : goalOf cfg ProductId.HV_PACK = 0 := rfl
    have hpnn := hvPackStep_packed_nonneg cfg rem s
    split_ifs with hp
    · refine ⟨hg, by simp only []; linarith, ?_, fun hne => absurd rfl hne⟩
      show (s.product_status .HV_PACK).left =
        max 0 (goalOf cfg .HV_PACK -
          ((s.product_status .HV_PACK).packed_sum + (hvPackStep cfg rem s).packed))
      rw [hmax, hgoal]
      rw [max_eq_left (by linarith), max_eq_left (by linarith)]
    · exact ⟨hg, hps, hmax, fun hne => absurd rfl hne⟩
  · rw [hvPackStep_state_status_ne cfg rem s q hq]
    exact h q

lemma hvPackStep_stockInv (cfg : Config) (rem : ℚ) (s : SimState)
    (h : StockInv s.stocks) : StockInv (hvPackStep cfg rem s).state.stocks := by
  rw [hvPackStep_state_stocks]
  split_ifs with hp
  · have h1 := h .s1HV
    simp only [stockVal, stockCap] at h1
    intro k
    rw [stockVal_s1HV_set]
    split_ifs with hk
    · subst hk
      simp only [stockCap]
      constructor
      · exact le_max_left _ _
      · refine le_trans (max_le h1.1 (by linarith)) h1.2
    · exact h k
  · exact h

lemma hvPackStep_left_le (cfg : Config) (rem : ℚ) (s : SimState) (q : ProductId) :
    ((hvPackStep cfg rem s).state.product_status q).left ≤ (s.product_status q).left := by
  rcases eq_or_ne q .HV_PACK with rfl | hq
  · rw [hvPackStep_state_status_self]
    split_ifs <;> exact le_refl _
  · rw [hvPackStep_state_status_ne cfg rem s q hq]

lemma hvPackStep_goal_orig (cfg : Config) (rem : ℚ) (s : SimState) (q : ProductId) :
    ((hvPackStep cfg rem s).state.product_status q).goal_orig =
      (s.product_status q).goal_orig := by
  rcases eq_or_ne q .HV_PACK with rfl | hq
  · rw [hvPackStep_state_status_self]
    split_ifs <;> rfl
  · rw [hvPackStep_state_status_ne cfg rem s q hq]

/-! ### Whole-day composites -/

lemma allocateDay_state (cfg : Config) (s : SimState) :
    (allocateDay cfg s).state =
      (granStep .LLV_PACK
        (granStep .LV_PACK cfg.granule_line_capa
          (poolStep .C_PELLET cfg.c_line_capa 0
            (poolStep .F_PELLET cfg.f_line_capa cfg.f_daily
              (hvPackStep cfg
                (poolStep .G_PELLET
                  (poolStep .H_PELLET cfg.s1s2_pack_capa cfg.h_daily s).remaining
                  cfg.g_daily
                  (poolStep .H_PELLET cfg.s1s2_pack_capa cfg.h_daily s).state).remaining
                (poolStep .G_PELLET
                  (poolStep .H_PELLET cfg.s1s2_pack_capa cfg.h_daily s).remaining
                  cfg.g_daily
                  (poolStep .H_PELLET cfg.s1s2_pack_capa cfg.h_daily s).state).state).state).state).state).remaining
        (granStep .LV_PACK cfg.granule_line_capa
          (poolStep .C_PELLET cfg.c_line_capa 0
            (poolStep .F_PELLET cfg.f_line_capa cfg.f_daily
              (hvPackStep cfg
                (poolStep .G_PELLET
                  (poolStep .H_PELLET cfg.s1s2_pack_capa cfg.h_daily s).remaining
                  cfg.g_daily
                  (poolStep .H_PELLET cfg.s1s2_pack_capa cfg.h_daily s).state).remaining
                (poolStep .G_PELLET
                  (poolStep .H_PELLET cfg.s1s2_pack_capa cfg.h_daily s).remaining
                  cfg.g_daily
                  (poolStep .H_PELLET cfg.s1s2_pack_capa cfg.h_daily s).state).state).state).state).state).state).state := rfl

lemma allocateDay_goalInv {cfg : Config} (s : SimState)
    (h : GoalInv cfg s) : GoalInv cfg (allocateDay cfg s).state := by
  rw [allocateDay_state]
  exact granStep_goalInv _ _ _ (granStep_goalInv _ _ _ (poolStep_goalInv _ _ _ _
    (poolStep_goalInv _ _ _ _ (hvPackStep_goalInv _ _ (poolStep_goalInv _ _ _ _
      (poolStep_goalInv _ _ _ _ h))))))

lemma allocateDay_stockInv (cfg : Config) (s : SimState)
    (h : StockInv s.stocks) : StockInv (allocateDay cfg s).state.stocks := by
  rw [allocateDay_state]
  exact granStep_stockInv _ _ _ (granStep_stockInv _ _ _ (poolStep_stockInv _ _ _ _
    (poolStep_stockInv _ _ _ _ (hvPackStep_stockInv _ _ _ (poolStep_stockInv _ _ _ _
      (poolStep_stockInv _ _ _ _ h))))))

lemma allocateDay_left_le (cfg : Config) (s : SimState) (q : ProductId) :
    ((allocateDay cfg s).state.product_status q).left ≤ (s.product_status q).left := by
  rw [allocateDay_state]
  refine le_trans (granStep_left_le _ _ _ q) (le_trans (granStep_left_le _ _ _ q)
    (le_trans (poolStep_left_le _ _ _ _ q) (le_trans (poolStep_left_le _ _ _ _ q)
      (le_trans (hvPackStep_left_le _ _ _ q) (le_trans (poolStep_left_le _ _ _ _ q)
        (poolStep_left_le _ _ _ _ q))))))

lemma allocateDay_goal_orig (cfg : Config) (s : SimState) (q : ProductId) :
    ((allocateDay cfg s).state.product_status q).goal_orig =
      (s.product_status q).goal_orig := by
  rw [allocateDay_state]
  rw [granStep_goal_orig, granStep_goal_orig, poolStep_goal_orig, poolStep_goal_orig,
    hvPackStep_goal_orig, poolStep_goal_orig, poolStep_goal_orig]

lemma allocateDay_keep (cfg : Config) (s : SimState) (q : ProductId)
    (hqHV : q ≠ .HV_PACK) (hl : (s.product_status q).left ≤ 0) :
    (allocateDay cfg s).state.product_status q = s.product_status q := by
  rw [allocateDay_state]
  set A := poolStep .H_PELLET cfg.s1s2_pack_capa cfg.h_daily s with hA
  set B := poolStep .G_PELLET A.remaining cfg.g_daily A.state with hB
  set C := hvPackStep cfg B.remaining B.state with hC
  set D := poolStep .F_PELLET cfg.f_line_capa cfg.f_daily C.state with hD
  set E := poolStep .C_PELLET cfg.c_line_capa 0 D.state with hE
  set F := granStep .LV_PACK cfg.granule_line_capa E.state with hF
  have e1 : A.state.product_status q = s.product_status q := by
    rw [hA]
    exact poolStep_keep _ _ _ _ _ hl
  have l1 : (A.state.product_status q).left ≤ 0 := by rw [e1]; exact hl
  have e2 : B.state.product_status q = s.product_status q := by
    rw [hB, poolStep_keep _ _ _ _ _ l1]
    exact e1
  have l2 : (B.state.product_status q).left ≤ 0 := by rw [e2]; exact hl
  have e3 : C.state.product_status q = s.product_status q := by
    rw [hC, hvPackStep_state_status_ne _ _ _ _ hqHV]
    exact e2
  have l3 : (C.state.product_status q).left ≤ 0 := by rw [e3]; exact hl
  have e4 : D.state.product_status q = s.product_status q := by
    rw [hD, poolStep_keep _ _ _ _ _ l3]
    exact e3
  have l4 : (D.state.product_status q).left ≤ 0 := by rw [e4]; exact hl
  have e5 : E.state.product_status q = s.product_status q := by
    rw [hE, poolStep_keep _ _ _ _ _ l4]
    exact e4
  have l5 : (E.state.product_status q).left ≤ 0 := by rw [e5]; exact hl
  have e6 : F.state.product_status q = s.product_status q := by
    rw [hF, granStep_keep _ _ _ _ l5]
    exact e5
  have l6 : (F.state.product_status q).left ≤ 0 := by rw [e6]; exact hl
  rw [granStep_keep _ _ _ _ l6]
  exact e6

lemma runDay_snd (cfg : Config) (s : SimState) :
    (runDay cfg s).2 =
      (allocateDay cfg
        (replenishDay cfg (planDay cfg (resetPackedToday s)) (resetPackedToday s)).1).state
      := rfl

lemma runDay_goalInv {cfg : Config} (s : SimState) (h : GoalInv cfg s) :
    GoalInv cfg (runDay cfg s).2 := by
  rw [runDay_snd]
  refine allocateDay_goalInv _ ?_
  intro q
  rw [replenishDay_status]
  exact h q

lemma runDay_stockInv (cfg : Config) (s : SimState) (h : StockInv s.stocks) :
    StockInv (runDay cfg s).2.stocks := by
  rw [runDay_snd]
  exact allocateDay_stockInv _ _ (replenishDay_stockInv _ _ _ h)

lemma runDay_left_le (cfg : Config) (s : SimState) (q : ProductId) :
    ((runDay cfg s).2.product_status q).left ≤ (s.product_status q).left := by
  rw [runDay_snd]
  refine le_trans (allocateDay_left_le _ _ q) ?_
  rw [replenishDay_status]
  exact le_refl _

lemma runDay_goal_orig (cfg : Config) (s : SimState) (q : ProductId) :
    ((runDay cfg s).2.product_status q).goal_orig = (s.product_status q).goal_orig := by
  rw [runDay_snd, allocateDay_goal_orig, replenishDay_status]
  rfl

lemma runDay_status_of_nonpos (cfg : Config) (s : SimState) (q : ProductId)
    (hqHV : q ≠ .HV_PACK) (hl : (s.product_status q).left ≤ 0) :
    (runDay cfg s).2.product_status q =
      { s.product_status q with packed_today := 0 } := by
  rw [runDay_snd]
  rw [allocateDay_keep _ _ q hqHV (by rw [replenishDay_status]; exact hl),
    replenishDay_status]
  rfl

/-! ### The day loop -/

lemma iterDays_succ (cfg : Config) (n : Nat) (s : SimState) :
    iterDays cfg (n + 1) s = iterDays cfg n (runDay cfg s).2 := rfl

lemma iterDays_succ_out (cfg : Config) :
    ∀ (n : Nat) (s : SimState), iterDays cfg (n + 1) s = (runDay cfg (iterDays cfg n s)).2 := by
  intro n
  induction n with
  | zero => intro s; rfl
  | succ m ih =>
    intro s
    rw [iterDays_succ cfg (m + 1) s, ih]
    rfl

lemma stateAfter_succ (cfg : Config) (n : Nat) :
    stateAfter cfg (n + 1) = (runDay cfg (stateAfter cfg n)).2 := by
  unfold stateAfter
  exact iterDays_succ_out cfg n (initState cfg)

lemma stateAfter_goalInv {cfg : Config} (hg : ∀ pid, 0 ≤ goalOf cfg pid) (n : Nat) :
    GoalInv cfg (stateAfter cfg n) := by
  induction n with
  | zero => exact initState_goalInv cfg hg
  | succ m ih =>
    rw [stateAfter_succ]
    exact runDay_goalInv _ ih

lemma stateAfter_stockInv (cfg : Config) (n : Nat) :
    StockInv (stateAfter cfg n).stocks := by
  induction n with
  | zero =>
    intro k
    cases k <;>
      simp [stateAfter, iterDays, initState, stockVal, stockCap, LV_INIT, LLV_INIT,
        NP3_INIT_VAL, INVENTORY_CAP, SILO2_CAP, NP3_MAX_INV] <;> norm_num
  | succ m ih =>
    rw [stateAfter_succ]
    exact runDay_stockInv _ _ ih

lemma stateAfter_goal_orig (cfg : Config) (n : Nat) (q : ProductId) :
    ((stateAfter cfg n).product_status q).goal_orig = goalOf cfg q := by
  induction n with
  | zero => rfl
  | succ m ih =>
    rw [stateAfter_succ, runDay_goal_orig]
    exact ih

lemma stateAfter_left_le_max_goal (cfg : Config) (n : Nat) (q : ProductId) :
    ((stateAfter cfg n).product_status q).left ≤ max 0 (goalOf cfg q) := by
  induction n with
  | zero => exact le_max_right _ _
  | succ m ih =>
    rw [stateAfter_succ]
    exact le_trans (runDay_left_le _ _ q) ih

/-- Every product with a positive configured target has been satisfied to
within the `0.001` tolerance. -/
def donePos (cfg : Config) (s : SimState) : Prop :=
  ∀ pid, 0 < goalOf cfg pid → (s.product_status pid).left ≤ EPS

lemma mem_targetedPids (pid : ProductId) (h : pid ≠ .HV_PACK) : pid ∈ targetedPids := by
  cases pid <;> simp [targetedPids] at h ⊢

/-- The loop's early-exit test agrees with the positive-target reading as
long as each product's `left` is bounded by its (clamped) configured goal. -/
lemma remaining_targets_iff (cfg : Config) (s : SimState)
    (hb : ∀ pid, (s.product_status pid).left ≤ max 0 (goalOf cfg pid)) :
    remaining_targets s = false ↔ donePos cfg s := by
  constructor
  · intro h pid hpos
    by_contra hlt
    push_neg at hlt
    have hmem : pid ∈ targetedPids := by
      refine mem_targetedPids pid ?_
      intro hHV
      rw [hHV] at hpos
      exact absurd hpos (lt_irrefl 0)
    have : remaining_targets s = true := by
      unfold remaining_targets
      rw [List.any_eq_true]
      exact ⟨pid, hmem, by simpa using hlt⟩
    rw [this] at h
    exact absurd h (by simp)
  · intro h
    by_contra hne
    have : remaining_targets s = true := by
      cases hr : remaining_targets s
      · exact absurd hr hne
      · rfl
    unfold remaining_targets at this
    rw [List.any_eq_true] at this
    obtain ⟨pid, hmem, hlt⟩ := this
    simp only [decide_eq_true_eq] at hlt
    have hbp := hb pid
    have hEps : (0 : ℚ) < EPS := by norm_num [EPS]
    rcases le_or_lt (goalOf cfg pid) 0 with hg | hg
    · rw [max_eq_left hg] at hbp
      linarith
    · exact absurd (h pid hg) (not_le.mpr hlt)

/-- Full characterization of the truncated day loop against the pure
iteration `iterDays`: at most `n` days are emitted, the final state is the
iterate at the emitted length, the loop never stops while a target
remains unmet, and an early stop implies the exit condition held. -/
lemma runDaysAux_spec (cfg : Config) :
    ∀ (n : Nat) (s : SimState),
      (runDaysAux cfg n s).1.length ≤ n ∧
      (runDaysAux cfg n s).2 = iterDays cfg (runDaysAux cfg n s).1.length s ∧
      (∀ i, i + 1 < (runDaysAux cfg n s).1.length →
        remaining_targets (iterDays cfg (i + 1) s) = true) ∧
      ((runDaysAux cfg n s).1.length < n →
        remaining_targets (iterDays cfg (runDaysAux cfg n s).1.length s) = false) ∧
      (0 < n → 0 < (runDaysAux cfg n s).1.length) := by
  intro n
  induction n with
  | zero =>
    intro s
    exact ⟨le_refl 0, rfl, fun i hi => absurd hi (by simp [runDaysAux]),
      fun h => absurd h (by simp [runDaysAux]), fun h => absurd h (lt_irrefl 0)⟩
  | succ m ih =>
    intro s
    simp only [runDaysAux]
    cases hb : remaining_targets (runDay cfg s).2
    · simp only [Bool.false_eq_true, if_false]
      refine ⟨by simp, rfl, ?_, ?_, by simp⟩
      · intro i hi
        simp at hi
      · intro _
        exact hb
    · simp only [if_true]
      obtain ⟨ihlen, ihfin, ihrem, ihstop, ihpos⟩ := ih (runDay cfg s).2
      refine ⟨?_, ?_, ?_, ?_, ?_⟩
      · simpa using Nat.succ_le_succ ihlen
      · simpa using ihfin
      · intro i hi
        simp only [List.length_cons] at hi
        match i with
        | 0 => exact hb
        | Nat.succ j =>
          have hj : j + 1 < (runDaysAux cfg m (runDay cfg s).2).1.length :=
            Nat.lt_of_succ_lt_succ hi
          exact ihrem j hj
      · intro hlt
        simp only [List.length_cons] at hlt ⊢
        exact ihstop (Nat.lt_of_succ_lt_succ hlt)
      · intro _
        simp

/-! ### Pool-consumption arithmetic -/

lemma poolStep_capacity_def (pid : ProductId) (rem d : ℚ) (s : SimState) :
    (poolStep pid rem d s).capacity = if d > 0 then min rem d else rem := rfl

lemma poolStep_packed_def (pid : ProductId) (rem d : ℚ) (s : SimState) :
    (poolStep pid rem d s).packed =
      (schedule_product pid (poolStep pid rem d s).capacity s).1 := rfl

lemma poolStep_remaining_def (pid : ProductId) (rem d : ℚ) (s : SimState) :
    (poolStep pid rem d s).remaining =
      if 0 < (poolStep pid rem d s).packed then
        max 0 (rem - (poolStep pid rem d s).packed)
      else rem := rfl

lemma granStep_capacity_def (pid : ProductId) (rem : ℚ) (s : SimState) :
    (granStep pid rem s).capacity = min rem (s.product_status pid).left := rfl

lemma granStep_packed_def (pid : ProductId) (rem : ℚ) (s : SimState) :
    (granStep pid rem s).packed =
      (schedule_product pid (granStep pid rem s).capacity s).1 := rfl

lemma granStep_remaining_def (pid : ProductId) (rem : ℚ) (s : SimState) :
    (granStep pid rem s).remaining =
      if 0 < (granStep pid rem s).packed then
        max 0 (rem - (granStep pid rem s).packed)
      else rem := rfl

lemma poolStep_capacity_le (pid : ProductId) (rem d : ℚ) (s : SimState) :
    (poolStep pid rem d s).capacity ≤ rem := by
  rw [poolStep_capacity_def]
  split_ifs
  · exact min_le_left _ _
  · exact le_refl _

lemma granStep_capacity_le (pid : ProductId) (rem : ℚ) (s : SimState) :
    (granStep pid rem s).capacity ≤ rem := by
  rw [granStep_capacity_def]
  exact min_le_left _ _

lemma poolStep_packed_nonneg (pid : ProductId) (rem d : ℚ) (s : SimState) :
    0 ≤ (poolStep pid rem d s).packed := by
  rw [poolStep_packed_def]
  exact sched_fst_nonneg _ _ _

lemma granStep_packed_nonneg (pid : ProductId) (rem : ℚ) (s : SimState) :
    0 ≤ (granStep pid rem s).packed := by
  rw [granStep_packed_def]
  exact sched_fst_nonneg _ _ _

/-- When a pool step runs with a positive capacity limit (or packs
nothing), its draw fits in the pool remainder and consumes it exactly. -/
lemma poolStep_remaining (pid : ProductId) (rem d : ℚ) (s : SimState)
    (h0 : 0 ≤ rem)
    (h : 0 < (poolStep pid rem d s).capacity ∨ (poolStep pid rem d s).packed = 0) :
    (poolStep pid rem d s).remaining = rem - (poolStep pid rem d s).packed ∧
      (poolStep pid rem d s).packed ≤ rem := by
  have hple : (poolStep pid rem d s).packed ≤ rem := by
    rcases h with hc | hp
    · rw [poolStep_packed_def]
      exact le_trans (sched_fst_le_cap _ _ _ hc) (poolStep_capacity_le _ _ _ _)
    · rw [hp]
      exact h0
  refine ⟨?_, hple⟩
  rw [poolStep_remaining_def]
  split_ifs with hp
  · rw [max_eq_right (by linarith)]
  · push_neg at hp
    have := poolStep_packed_nonneg pid rem d s
    have hz : (poolStep pid rem d s).packed = 0 := le_antisymm hp this
    rw [hz, sub_zero]

lemma granStep_remaining (pid : ProductId) (rem : ℚ) (s : SimState)
    (h0 : 0 ≤ rem)
    (h : 0 < (granStep pid rem s).capacity ∨ (granStep pid rem s).packed = 0) :
    (granStep pid rem s).remaining = rem - (granStep pid rem s).packed ∧
      (granStep pid rem s).packed ≤ rem := by
  have hple : (granStep pid rem s).packed ≤ rem := by
    rcases h with hc | hp
    · rw [granStep_packed_def]
      exact le_trans (sched_fst_le_cap _ _ _ hc) (granStep_capacity_le _ _ _)
    · rw [hp]
      exact h0
  refine ⟨?_, hple⟩
  rw [granStep_remaining_def]
  split_ifs with hp
  · rw [max_eq_right (by linarith)]
  · push_neg at hp
    have := granStep_packed_nonneg pid rem s
    have hz : (granStep pid rem s).packed = 0 := le_antisymm hp this
    rw [hz, sub_zero]

lemma hvPackStep_capacity_le (cfg : Config) (rem : ℚ) (s : SimState) :
    (hvPackStep cfg rem s).capacity ≤ rem := by
  show (if cfg.s1_hv_max_capa > 0 then min rem cfg.s1_hv_max_capa else rem) ≤ rem
  split_ifs
  · exact min_le_left _ _
  · exact le_refl _

/-- The HV direct pack never exceeds the pool remainder handed to it (it
has no zero-means-uncapped special case). -/
lemma hvPackStep_packed_le (cfg : Config) (rem : ℚ) (s : SimState) (h0 : 0 ≤ rem) :
    (hvPackStep cfg rem s).packed ≤ rem := by
  show max 0 (min s.stocks.s1_HV
    (if cfg.s1_hv_max_capa > 0 then min rem cfg.s1_hv_max_capa else rem)) ≤ rem
  exact max_le h0 (le_trans (min_le_right _ _) (hvPackStep_capacity_le cfg rem s))

/-! ### AllocOut projections -/

lemma allocateDay_rH (cfg : Config) (s : SimState) :
    (allocateDay cfg s).packed_h =
      (poolStep .H_PELLET cfg.s1s2_pack_capa cfg.h_daily s).packed ∧
    (allocateDay cfg s).h_capacity =
      (poolStep .H_PELLET cfg.s1s2_pack_capa cfg.h_daily s).capacity := ⟨rfl, rfl⟩

lemma allocateDay_rG (cfg : Config) (s : SimState) :
    (allocateDay cfg s).packed_g =
      (poolStep .G_PELLET (poolStep .H_PELLET cfg.s1s2_pack_capa cfg.h_daily s).remaining
        cfg.g_daily (poolStep .H_PELLET cfg.s1s2_pack_capa cfg.h_daily s).state).packed ∧
    (allocateDay cfg s).g_capacity =
      (poolStep .G_PELLET (poolStep .H_PELLET cfg.s1s2_pack_capa cfg.h_daily s).remaining
        cfg.g_daily (poolStep .H_PELLET cfg.s1s2_pack_capa cfg.h_daily s).state).capacity :=
  ⟨rfl, rfl⟩

lemma allocateDay_rHV (cfg : Config) (s : SimState) :
    (allocateDay cfg s).hv_amount =
      (hvPackStep cfg
        (poolStep .G_PELLET (poolStep .H_PELLET cfg.s1s2_pack_capa cfg.h_daily s).remaining
          cfg.g_daily (poolStep .H_PELLET cfg.s1s2_pack_capa cfg.h_daily s).state).remaining
        (poolStep .G_PELLET (poolStep .H_PELLET cfg.s1s2_pack_capa cfg.h_daily s).remaining
          cfg.g_daily
          (poolStep .H_PELLET cfg.s1s2_pack_capa cfg.h_daily s).state).state).packed := rfl

/-- The combined S1+S2 pool: provided the pool remainder is positive at
the H and G draws (or the corresponding draw is zero), the three draws
sum to at most the configured pool capacity. -/
lemma s1s2_pool_sum_le (cfg : Config) (s : SimState)
    (hcap : 0 ≤ cfg.s1s2_pack_capa)
    (hh : 0 < (allocateDay cfg s).h_capacity ∨ (allocateDay cfg s).packed_h = 0)
    (hg : 0 < (allocateDay cfg s).g_capacity ∨ (allocateDay cfg s).packed_g = 0) :
    (allocateDay cfg s).packed_h + (allocateDay cfg s).packed_g +
      (allocateDay cfg s).hv_amount ≤ cfg.s1s2_pack_capa := by
  obtain ⟨ehp, ehc⟩ := allocateDay_rH cfg s
  obtain ⟨egp, egc⟩ := allocateDay_rG cfg s
  have ehv := allocateDay_rHV cfg s
  rw [ehc, ehp] at hh
  rw [egc, egp] at hg
  rw [ehp, egp, ehv]
  obtain ⟨hrem1, hple1⟩ :=
    poolStep_remaining .H_PELLET cfg.s1s2_pack_capa cfg.h_daily s hcap hh
  have hrem1nn : 0 ≤ (poolStep .H_PELLET cfg.s1s2_pack_capa cfg.h_daily s).remaining := by
    rw [hrem1]
    linarith
  obtain ⟨hrem2, hple2⟩ := poolStep_remaining .G_PELLET _ cfg.g_daily _ hrem1nn hg
  have hrem2nn : 0 ≤ (poolStep .G_PELLET
      (poolStep .H_PELLET cfg.s1s2_pack_capa cfg.h_daily s).remaining cfg.g_daily
      (poolStep .H_PELLET cfg.s1s2_pack_capa cfg.h_daily s).state).remaining := by
    rw [hrem2]
    linarith
  have hhv := hvPackStep_packed_le cfg
    (poolStep .G_PELLET (poolStep .H_PELLET cfg.s1s2_pack_capa cfg.h_daily s).remaining
      cfg.g_daily (poolStep .H_PELLET cfg.s1s2_pack_capa cfg.h_daily s).state).remaining
    (poolStep .G_PELLET (poolStep .H_PELLET cfg.s1s2_pack_capa cfg.h_daily s).remaining
      cfg.g_daily (poolStep .H_PELLET cfg.s1s2_pack_capa cfg.h_daily s).state).state
    hrem2nn
  have h1 := poolStep_packed_nonneg .H_PELLET cfg.s1s2_pack_capa cfg.h_daily s
  linarith

lemma allocateDay_rLV (cfg : Config) (s : SimState) :
    (allocateDay cfg s).packed_lv =
      (granStep .LV_PACK cfg.granule_line_capa
        (poolStep .C_PELLET cfg.c_line_capa 0
          (poolStep .F_PELLET cfg.f_line_capa cfg.f_daily
            (hvPackStep cfg
              (poolStep .G_PELLET
                (poolStep .H_PELLET cfg.s1s2_pack_capa cfg.h_daily s).remaining cfg.g_daily
                (poolStep .H_PELLET cfg.s1s2_pack_capa cfg.h_daily s).state).remaining
              (poolStep .G_PELLET
                (poolStep .H_PELLET cfg.s1s2_pack_capa cfg.h_daily s).remaining cfg.g_daily
                (poolStep .H_PELLET cfg.s1s2_pack_capa
                  cfg.h_daily s).state).state).state).state).state).packed ∧
    (allocateDay cfg s).lv_capacity =
      (granStep .LV_PACK cfg.granule_line_capa
        (poolStep .C_PELLET cfg.c_line_capa 0
          (poolStep .F_PELLET cfg.f_line_capa cfg.f_daily
            (hvPackStep cfg
              (poolStep .G_PELLET
                (poolStep .H_PELLET cfg.s1s2_pack_capa cfg.h_daily s).remaining cfg.g_daily
                (poolStep .H_PELLET cfg.s1s2_pack_capa cfg.h_daily s).state).remaining
              (poolStep .G_PELLET
                (poolStep .H_PELLET cfg.s1s2_pack_capa cfg.h_daily s).remaining cfg.g_daily
                (poolStep .H_PELLET cfg.s1s2_pack_capa
                  cfg.h_daily s).state).state).state).state).state).capacity := ⟨rfl, rfl⟩

/-- The granule pool: provided the pool remainder is positive at the LV
and LLV draws (or the draw is zero), the two draws sum to at most the
configured granule line capacity. -/
lemma granule_pool_sum_le (cfg : Config) (s : SimState)
    (hcap : 0 ≤ cfg.granule_line_capa)
    (hlv : 0 < (allocateDay cfg s).lv_capacity ∨ (allocateDay cfg s).packed_lv = 0)
    (hllv : 0 < (allocateDay cfg s).llv_capacity ∨ (allocateDay cfg s).packed_llv = 0) :
    (allocateDay cfg s).packed_lv + (allocateDay cfg s).packed_llv ≤
      cfg.granule_line_capa := by
  obtain ⟨elp, elc⟩ := allocateDay_rLV cfg s
  have elvp : (allocateDay cfg s).packed_llv =
      (granStep .LLV_PACK (granStep .LV_PACK cfg.granule_line_capa
        (poolStep .C_PELLET cfg.c_line_capa 0
          (poolStep .F_PELLET cfg.f_line_capa cfg.f_daily
            (hvPackStep cfg
              (poolStep .G_PELLET
                (poolStep .H_PELLET cfg.s1s2_pack_capa cfg.h_daily s).remaining cfg.g_daily
                (poolStep .H_PELLET cfg.s1s2_pack_capa cfg.h_daily s).state).remaining
              (poolStep .G_PELLET
                (poolStep .H_PELLET cfg.s1s2_pack_capa cfg.h_daily s).remaining cfg.g_daily
                (poolStep .H_PELLET cfg.s1s2_pack_capa
                  cfg.h_daily s).state).state).state).state).state).remaining
        (granStep .LV_PACK cfg.granule_line_capa
          (poolStep .C_PELLET cfg.c_line_capa 0
            (poolStep .F_PELLET cfg.f_line_capa cfg.f_daily
              (hvPackStep cfg
                (poolStep .G_PELLET
                  (poolStep .H_PELLET cfg.s1s2_pack_capa cfg.h_daily s).remaining cfg.g_daily
                  (poolStep .H_PELLET cfg.s1s2_pack_capa cfg.h_daily s).state).remaining
                (poolStep .G_PELLET
                  (poolStep .H_PELLET cfg.s1s2_pack_capa cfg.h_daily s).remaining cfg.g_daily
                  (poolStep .H_PELLET cfg.s1s2_pack_capa
                    cfg.h_daily s).state).state).state).state).state).state).packed ∧
      (allocateDay cfg s).llv_capacity =
      (granStep .LLV_PACK (granStep .LV_PACK cfg.granule_line_capa
        (poolStep .C_PELLET cfg.c_line_capa 0
          (poolStep .F_PELLET cfg.f_line_capa cfg.f_daily
            (hvPackStep cfg
              (poolStep .G_PELLET
                (poolStep .H_PELLET cfg.s1s2_pack_capa cfg.h_daily s).remaining cfg.g_daily
                (poolStep .H_PELLET cfg.s1s2_pack_capa cfg.h_daily s).state).remaining
              (poolStep .G_PELLET
                (poolStep .H_PELLET cfg.s1s2_pack_capa cfg.h_daily s).remaining cfg.g_daily
                (poolStep .H_PELLET cfg.s1s2_pack_capa
                  cfg.h_daily s).state).state).state).state).state).remaining
        (granStep .LV_PACK cfg.granule_line_capa
          (poolStep .C_PELLET cfg.c_line_capa 0
            (poolStep .F_PELLET cfg.f_line_capa cfg.f_daily
              (hvPackStep cfg
                (poolStep .G_PELLET
                  (poolStep .H_PELLET cfg.s1s2_pack_capa cfg.h_daily s).remaining cfg.g_daily
                  (poolStep .H_PELLET cfg.s1s2_pack_capa cfg.h_daily s).state).remaining
                (poolStep .G_PELLET
                  (poolStep .H_PELLET cfg.s1s2_pack_capa cfg.h_daily s).remaining cfg.g_daily
                  (poolStep .H_PELLET cfg.s1s2_pack_capa
                    cfg.h_daily s).state).state).state).state).state).state).capacity :=
    ⟨rfl, rfl⟩
  obtain ⟨ellp, ellc⟩ := elvp
  rw [elc, elp] at hlv
  rw [ellc, ellp] at hllv
  rw [elp, ellp]
  obtain ⟨hrem1, hple1⟩ := granStep_remaining .LV_PACK cfg.granule_line_capa _ hcap hlv
  have hrem1nn : 0 ≤ (granStep .LV_PACK cfg.granule_line_capa
      (poolStep .C_PELLET cfg.c_line_capa 0
        (poolStep .F_PELLET cfg.f_line_capa cfg.f_daily
          (hvPackStep cfg
            (poolStep .G_PELLET
              (poolStep .H_PELLET cfg.s1s2_pack_capa cfg.h_daily s).remaining cfg.g_daily
              (poolStep .H_PELLET cfg.s1s2_pack_capa cfg.h_daily s).state).remaining
            (poolStep .G_PELLET
              (poolStep .H_PELLET cfg.s1s2_pack_capa cfg.h_daily s).remaining cfg.g_daily
              (poolStep .H_PELLET cfg.s1s2_pack_capa
                cfg.h_daily s).state).state).state).state).state).remaining := by
    rw [hrem1]
    linarith
  obtain ⟨hrem2, hple2⟩ := granStep_remaining .LLV_PACK _ _ hrem1nn hllv
  have h2 := granStep_packed_nonneg .LLV_PACK (granStep .LV_PACK cfg.granule_line_capa
      (poolStep .C_PELLET cfg.c_line_capa 0
        (poolStep .F_PELLET cfg.f_line_capa cfg.f_daily
          (hvPackStep cfg
            (poolStep .G_PELLET
              (poolStep .H_PELLET cfg.s1s2_pack_capa cfg.h_daily s).remaining cfg.g_daily
              (poolStep .H_PELLET cfg.s1s2_pack_capa cfg.h_daily s).state).remaining
            (poolStep .G_PELLET
              (poolStep .H_PELLET cfg.s1s2_pack_capa cfg.h_daily s).remaining cfg.g_daily
              (poolStep .H_PELLET cfg.s1s2_pack_capa
                cfg.h_daily s).state).state).state).state).state).remaining
      (granStep .LV_PACK cfg.granule_line_capa
        (poolStep .C_PELLET cfg.c_line_capa 0
          (poolStep .F_PELLET cfg.f_line_capa cfg.f_daily
            (hvPackStep cfg
              (poolStep .G_PELLET
                (poolStep .H_PELLET cfg.s1s2_pack_capa cfg.h_daily s).remaining cfg.g_daily
                (poolStep .H_PELLET cfg.s1s2_pack_capa cfg.h_daily s).state).remaining
              (poolStep .G_PELLET
                (poolStep .H_PELLET cfg.s1s2_pack_capa cfg.h_daily s).remaining cfg.g_daily
                (poolStep .H_PELLET cfg.s1s2_pack_capa
                  cfg.h_daily s).state).state).state).state).state).state
  linarith

/-! ### The allocation formula (spec side) -/

/-- Spec-side definition: "the max amount the current material stocks
support given the recipe ratios" — the minimum over the recipe
ingredients of `available quantity / quantity-per-unit`. -/
def supportBound (pid : ProductId) (st : Stocks) : ℚ :=
  (((recipe pid).map (fun ing => availFor pid st ing.1 / ing.2)).min?).getD 0

lemma availFor_le (pid : ProductId) (st : Stocks) (m : MaterialVar)
    (h : 0 ≤ getStock st m) : availFor pid st m ≤ getStock st m := by
  simp only [availFor]
  split_ifs with hcm
  · refine max_le h ?_
    have : (0 : ℚ) ≤ LLV_SAFETY_STOCK_FOR_C := by norm_num [LLV_SAFETY_STOCK_FOR_C]
    linarith
  · exact le_refl _

lemma availFor_nonneg (pid : ProductId) (st : Stocks) (m : MaterialVar)
    (h : 0 ≤ getStock st m) : 0 ≤ availFor pid st m := by
  simp only [availFor]
  split_ifs with hcm
  · exact le_max_left _ _
  · exact h

lemma minmax_norm1 (L c v : ℚ) (hL : 0 < L) (hc : 0 < c) (hv : 0 ≤ v) :
    max 0 (min (min L c) (min (min L c) v)) = min L (min c v) := by
  rw [← min_assoc (min L c) (min L c) v, min_self,
    max_eq_right (le_min (le_min hL.le hc.le) hv), min_assoc]

lemma minmax_norm2 (L c v w : ℚ) (hL : 0 < L) (hc : 0 < c) (hv : 0 ≤ v) (hw : 0 ≤ w) :
    max 0 (min (min L c) (min (min (min L c) v) w)) = min L (min c (min v w)) := by
  have h1 : min (min (min L c) v) w ≤ min L c :=
    le_trans (min_le_left _ _) (min_le_left _ _)
  rw [min_eq_right h1, min_assoc (min L c) v w, min_assoc]
  exact max_eq_right (le_min hL.le (le_min hc.le (le_min hv hw)))

/-- The produced amount for a single-ingredient product with a positive
capacity limit: exactly `min(left, capacity, stock support)`. -/
lemma sched_formula_single (pid : ProductId) (m : MaterialVar) (q c : ℚ) (s : SimState)
    (hr : recipe pid = [(m, q)]) (hq : 0 < q) (hHV : pid ≠ .HV_PACK)
    (hleft : 0 < (s.product_status pid).left) (hc : 0 < c)
    (hav : 0 ≤ availFor pid s.stocks m) :
    (schedule_product pid c s).1 =
      min (s.product_status pid).left (min c (availFor pid s.stocks m / q)) := by
  have hv : 0 ≤ availFor pid s.stocks m / q := div_nonneg hav hq.le
  have hnorm := minmax_norm1 (s.product_status pid).left c
    (availFor pid s.stocks m / q) hleft hc hv
  simp only [schedule_product, if_neg hHV, if_neg (not_le.mpr hleft), if_pos hc, hr,
    List.foldl, if_pos hq]
  split_ifs with hp
  · rw [hnorm] at hp
    have h0 : 0 ≤ min (s.product_status pid).left (min c (availFor pid s.stocks m / q)) :=
      le_min hleft.le (le_min hc.le hv)
    show (0 : ℚ) = _
    linarith
  · exact hnorm

/-- The produced amount for H pellet (two ingredients, ratio-scaled). -/
lemma sched_formula_H (c : ℚ) (s : SimState)
    (hleft : 0 < (s.product_status .H_PELLET).left) (hc : 0 < c)
    (hav1 : 0 ≤ s.stocks.s1_HV) (hav2 : 0 ≤ s.stocks.s2_LV) :
    (schedule_product .H_PELLET c s).1 =
      min (s.product_status .H_PELLET).left
        (min c (min (s.stocks.s1_HV / (1/2)) (s.stocks.s2_LV / (1/2)))) := by
  have hv1 : 0 ≤ s.stocks.s1_HV / (1/2) := by positivity
  have hv2 : 0 ≤ s.stocks.s2_LV / (1/2) := by positivity
  have hnorm := minmax_norm2 (s.product_status .H_PELLET).left c
    (s.stocks.s1_HV / (1/2)) (s.stocks.s2_LV / (1/2)) hleft hc hv1 hv2
  have hne : ¬(ProductId.H_PELLET = ProductId.HV_PACK) := by simp
  have e1 : availFor .H_PELLET s.stocks .s1_HV = s.stocks.s1_HV := by
    simp [availFor, getStock]
  have e2 : availFor .H_PELLET s.stocks .s2_LV = s.stocks.s2_LV := by
    simp [availFor, getStock]
  have hhalf : ((1 : ℚ)/2) > 0 := by norm_num
  simp only [schedule_product, if_neg hne, if_neg (not_le.mpr hleft), if_pos hc, recipe,
    List.foldl, e1, e2, if_pos hhalf]
  split_ifs with hp
  · rw [hnorm] at hp
    have h0 : 0 ≤ min (s.product_status .H_PELLET).left
        (min c (min (s.stocks.s1_HV / (1/2)) (s.stocks.s2_LV / (1/2)))) :=
      le_min hleft.le (le_min hc.le (le_min hv1 hv2))
    show (0 : ℚ) = _
    linarith
  · exact hnorm

lemma supportBound_single (pid : ProductId) (m : MaterialVar) (q : ℚ) (st : Stocks)
    (hr : recipe pid = [(m, q)]) :
    supportBound pid st = availFor pid st m / q := by
  simp [supportBound, hr, List.min?]

lemma supportBound_H (st : Stocks) :
    supportBound .H_PELLET st =
      min (st.s1_HV / (1/2)) (st.s2_LV / (1/2)) := by
  simp [supportBound, recipe, List.min?, availFor, getStock]

/-- Exact single-ingredient debit when production is positive. -/
lemma sched_effects_single (pid : ProductId) (m : MaterialVar) (q c : ℚ) (s : SimState)
    (hr : recipe pid = [(m, q)]) (hq : 0 < q)
    (hst : 0 ≤ getStock s.stocks m)
    (hform : q * (schedule_product pid c s).1 ≤ availFor pid s.stocks m)
    (hp : 0 < (schedule_product pid c s).1) :
    getStock (schedule_product pid c s).2.stocks m =
      getStock s.stocks m - q * (schedule_product pid c s).1 := by
  rw [sched_stocks, if_pos hp, hr]
  simp only [List.foldl]
  rw [getStock_eq, setStock_val, if_pos rfl]
  have hava := availFor_le pid s.stocks m hst
  rw [max_eq_right (by linarith)]

/-- Exact per-ingredient debit for the two-ingredient H pellet. -/
lemma sched_effects_H (c : ℚ) (s : SimState)
    (hf1 : 1/2 * (schedule_product .H_PELLET c s).1 ≤ s.stocks.s1_HV)
    (hf2 : 1/2 * (schedule_product .H_PELLET c s).1 ≤ s.stocks.s2_LV)
    (hp : 0 < (schedule_product .H_PELLET c s).1) :
    (schedule_product .H_PELLET c s).2.stocks.s1_HV =
      s.stocks.s1_HV - 1/2 * (schedule_product .H_PELLET c s).1 ∧
    (schedule_product .H_PELLET c s).2.stocks.s2_LV =
      s.stocks.s2_LV - 1/2 * (schedule_product .H_PELLET c s).1 := by
  rw [show (schedule_product .H_PELLET c s).2.stocks.s1_HV =
      stockVal (schedule_product .H_PELLET c s).2.stocks .s1HV from rfl,
    show (schedule_product .H_PELLET c s).2.stocks.s2_LV =
      stockVal (schedule_product .H_PELLET c s).2.stocks .s2LV from rfl,
    sched_stocks, if_pos hp]
  simp only [recipe, List.foldl, setStock, getStock]
  constructor <;> (simp only [stockVal]; rw [max_eq_right (by linarith)])

/-! ### Pellet A's LLV safety floor -/

lemma availFor_C_LLV (st : Stocks) :
    availFor .C_PELLET st .LLV = max 0 (st.s3_LLV - LLV_SAFETY_STOCK_FOR_C) := by
  simp [availFor, getStock]

/-- Pellet A's production never exceeds its LLV stock above the safety
floor. -/
lemma sched_C_le_avail (c : ℚ) (s : SimState) :
    (schedule_product .C_PELLET c s).1 ≤
      max 0 (s.stocks.s3_LLV - LLV_SAFETY_STOCK_FOR_C) := by
  by_cases h2 : (s.product_status .C_PELLET).left ≤ 0
  · rw [sched_of_nonpos _ c s h2]
    exact le_max_left _ _
  have hne : ¬(ProductId.C_PELLET = ProductId.HV_PACK) := by simp
  have hone : ((1 : ℚ)) > 0 := by norm_num
  simp only [schedule_product, if_neg hne, if_neg h2, recipe, List.foldl,
    availFor_C_LLV, if_pos hone, div_one]
  split_ifs <;>
    first
      | exact le_max_left _ _
      | exact max_le (le_max_left _ _)
          (le_trans (min_le_right _ _) (min_le_right _ _))

/-- Pellet A never draws S3 LLV below the safety floor. -/
lemma sched_C_llv_after (c : ℚ) (s : SimState)
    (h50 : LLV_SAFETY_STOCK_FOR_C ≤ s.stocks.s3_LLV) :
    LLV_SAFETY_STOCK_FOR_C ≤ (schedule_product .C_PELLET c s).2.stocks.s3_LLV := by
  have hcap := sched_C_le_avail c s
  rw [max_eq_right (by linarith)] at hcap
  rw [show (schedule_product .C_PELLET c s).2.stocks.s3_LLV =
      stockVal (schedule_product .C_PELLET c s).2.stocks .s3LLV from rfl, sched_stocks]
  split_ifs with hp
  · simp only [recipe, List.foldl, keyOf, setStock_val, eq_self_iff_true, if_true]
    rw [getStock_eq]
    simp only [keyOf, stockVal, one_mul]
    refine le_trans ?_ (le_max_right _ _)
    linarith
  · simp only [stockVal]
    exact h50

/-! ### The NP3 campaign block -/

lemma np3TargetLevel_ge (pl : Planned) (f_left : ℚ) (hf : 0 < f_left) :
    NP3_TARGET_BATCH_PRODUCTION_SIZE ≤ np3TargetLevel pl f_left ∧
      np3TargetLevel pl f_left ≤ NP3_MAX_INV := by
  simp only [np3TargetLevel, if_pos hf]
  constructor
  · exact le_min (by norm_num [NP3_MAX_INV, NP3_TARGET_BATCH_PRODUCTION_SIZE])
      (le_max_right _ _)
  · exact min_le_left _ _

lemma np3Block_target (pl : Planned) (f_left rcap rroom : ℚ) (st : Stocks) :
    (np3Block pl f_left rcap rroom st).np3_target_level = np3TargetLevel pl f_left := by
  simp only [np3Block]
  split
  · split <;> rfl
  · rfl

/-- The fixed conversion rate is respected exactly:
`NP3 produced = LV consumed × rate` (both zero when no campaign ran). -/
lemma np3Block_conversion (pl : Planned) (f_left rcap rroom : ℚ) (st : Stocks) :
    (np3Block pl f_left rcap rroom st).np3_produced =
      (np3Block pl f_left rcap rroom st).lv_for_np3 *
        NP3_PRODUCTION_RATE_IN_CAMPAIGN := by
  simp only [np3Block]
  split
  · rename_i h1
    split
    · rename_i h2
      exact (div_mul_cancel₀ _ (ne_of_gt h1.2.1)).symm
    · show (0 : ℚ) = 0 * NP3_PRODUCTION_RATE_IN_CAMPAIGN
      rw [zero_mul]
  · show (0 : ℚ) = 0 * NP3_PRODUCTION_RATE_IN_CAMPAIGN
    rw [zero_mul]

/-! ### The emergency-mode toggle -/

lemma s2_lv_capacity_toggle (cfg : Config) (h : cfg.s2_emerg = 0) :
    s2_lv_capacity { cfg with emerg := true } =
      s2_lv_capacity { cfg with emerg := false } := by
  have ht : s2_lv_capacity { cfg with emerg := true } = cfg.s2_daily + cfg.s2_emerg := rfl
  have hf : s2_lv_capacity { cfg with emerg := false } = cfg.s2_daily := rfl
  rw [ht, hf, h, add_zero]

lemma s2Block_toggle (cfg : Config) (h : cfg.s2_emerg = 0) (pl : Planned) (st : Stocks) :
    s2Block { cfg with emerg := true } pl st =
      s2Block { cfg with emerg := false } pl st := by
  simp only [s2Block]
  rw [s2_lv_capacity_toggle cfg h]

lemma replenishDay_toggle (cfg : Config) (h : cfg.s2_emerg = 0) (pl : Planned)
    (s : SimState) :
    replenishDay { cfg with emerg := true } pl s =
      replenishDay { cfg with emerg := false } pl s := by
  simp only [replenishDay]
  rw [s2Block_toggle cfg h]
  rfl

lemma runDay_toggle (cfg : Config) (h : cfg.s2_emerg = 0) (s : SimState) :
    runDay { cfg with emerg := true } s = runDay { cfg with emerg := false } s := by
  simp only [runDay]
  rw [replenishDay_toggle cfg h]
  rfl

lemma runDaysAux_toggle (cfg : Config) (h : cfg.s2_emerg = 0) :
    ∀ (n : Nat) (s : SimState),
      runDaysAux { cfg with emerg := true } n s =
        runDaysAux { cfg with emerg := false } n s := by
  intro n
  induction n with
  | zero => intro s; rfl
  | succ m ih =>
    intro s
    simp only [runDaysAux]
    rw [runDay_toggle cfg h, ih]

lemma runAll_toggle (cfg : Config) (h : cfg.s2_emerg = 0) :
    runAll { cfg with emerg := true } = runAll { cfg with emerg := false } := by
  unfold runAll
  exact runDaysAux_toggle cfg h DAYS _

lemma summaryOf_toggle (cfg : Config) (h : cfg.s2_emerg = 0) :
    summaryOf { cfg with emerg := true } = summaryOf { cfg with emerg := false } := by
  simp only [summaryOf]
  rw [runAll_toggle cfg h]

/-! ### Zero-target products stay frozen -/

lemma stateAfter_frozen (cfg : Config) (q : ProductId) (hq : q ≠ .HV_PACK)
    (hg : goalOf cfg q = 0) :
    ∀ n, (stateAfter cfg n).product_status q =
      { goal_orig := 0, left := 0, packed_today := 0, packed_sum := 0 } := by
  intro n
  induction n with
  | zero =>
    show Status.mk (goalOf cfg q) (goalOf cfg q) 0 0 = Status.mk 0 0 0 0
    rw [hg]
  | succ m ih =>
    rw [stateAfter_succ, runDay_status_of_nonpos cfg _ q hq (by rw [ih]), ih]

/-! ### The final state of the truncated run, and the summary's rate -/

lemma runAll_snd (cfg : Config) :
    (runAll cfg).2 = stateAfter cfg (runAll cfg).1.length :=
  (runDaysAux_spec cfg DAYS (initState cfg)).2.1

/-- With every configured target 0, the summary's achievement rate is 0
(the 100% branch needs a positive-target row and there is none). -/
lemma summaryOf_rate_zero (cfg : Config) (hz : ∀ pid, goalOf cfg pid = 0) :
    (summaryOf cfg).overall_achievement_rate = 0 := by
  have hgo : ∀ pid, (((runAll cfg).2).product_status pid).goal_orig = 0 := by
    intro pid
    rw [runAll_snd cfg, stateAfter_goal_orig, hz]
  simp only [summaryOf, pidOrder, List.map, List.foldl]
  rw [hgo .C_PELLET, hgo .F_PELLET, hgo .H_PELLET, hgo .G_PELLET, hgo .LV_PACK,
    hgo .LLV_PACK, hgo .HV_PACK]
  norm_num

/-! ### The full allocation formula with its effects -/

lemma sched_status_pos (pid : ProductId) (c : ℚ) (s : SimState)
    (hp : 0 < (schedule_product pid c s).1) :
    ((schedule_product pid c s).2.product_status pid).left =
      max 0 ((s.product_status pid).left - (schedule_product pid c s).1) ∧
    ((schedule_product pid c s).2.product_status pid).packed_sum =
      (s.product_status pid).packed_sum + (schedule_product pid c s).1 := by
  rw [sched_status_self, if_pos hp]
  exact ⟨rfl, rfl⟩

/-- A single-ingredient product with a positive capacity limit: the
produced amount is the three-way minimum against `supportBound`, and a
positive production debits the ingredient exactly. -/
lemma sched_full_single (pid : ProductId) (m : MaterialVar) (c : ℚ) (s : SimState)
    (hr : recipe pid = [(m, 1)]) (hHV : pid ≠ .HV_PACK)
    (hleft : 0 < (s.product_status pid).left) (hc : 0 < c)
    (hst : StockInv s.stocks) :
    (schedule_product pid c s).1 =
      min (s.product_status pid).left (min c (supportBound pid s.stocks)) ∧
    (0 < (schedule_product pid c s).1 →
      ∀ ing ∈ recipe pid,
        stockVal (schedule_product pid c s).2.stocks (keyOf ing.1) =
          stockVal s.stocks (keyOf ing.1) - ing.2 * (schedule_product pid c s).1) := by
  have h0 : 0 ≤ getStock s.stocks m := by
    rw [getStock_eq]
    exact (hst _).1
  have hav : 0 ≤ availFor pid s.stocks m := availFor_nonneg pid s.stocks m h0
  have hform := sched_formula_single pid m 1 c s hr one_pos hHV hleft hc hav
  have hsup := supportBound_single pid m 1 s.stocks hr
  have hdiv : availFor pid s.stocks m / 1 = availFor pid s.stocks m := div_one _
  constructor
  · rw [hsup, hform]
  · intro hp ing hing
    rw [hr, List.mem_singleton] at hing
    subst hing
    have hle : 1 * (schedule_product pid c s).1 ≤ availFor pid s.stocks m := by
      rw [one_mul, hform, hdiv]
      exact le_trans (min_le_right _ _) (min_le_right _ _)
    show stockVal (schedule_product pid c s).2.stocks (keyOf m) =
      stockVal s.stocks (keyOf m) - 1 * (schedule_product pid c s).1
    rw [← getStock_eq, ← getStock_eq]
    exact sched_effects_single pid m 1 c s hr one_pos h0 hle hp

/-- The two-ingredient H pellet analogue of `sched_full_single`. -/
lemma sched_full_H (c : ℚ) (s : SimState)
    (hleft : 0 < (s.product_status .H_PELLET).left) (hc : 0 < c)
    (hst : StockInv s.stocks) :
    (schedule_product .H_PELLET c s).1 =
      min (s.product_status .H_PELLET).left
        (min c (supportBound .H_PELLET s.stocks)) ∧
    (0 < (schedule_product .H_PELLET c s).1 →
      ∀ ing ∈ recipe .H_PELLET,
        stockVal (schedule_product .H_PELLET c s).2.stocks (keyOf ing.1) =
          stockVal s.stocks (keyOf ing.1) -
            ing.2 * (schedule_product .H_PELLET c s).1) := by
  have h1 : 0 ≤ s.stocks.s1_HV := (hst .s1HV).1
  have h2 : 0 ≤ s.stocks.s2_LV := (hst .s2LV).1
  have hform := sched_formula_H c s hleft hc h1 h2
  have hd1 : s.stocks.s1_HV / (1/2) = 2 * s.stocks.s1_HV := by ring
  have hd2 : s.stocks.s2_LV / (1/2) = 2 * s.stocks.s2_LV := by ring
  constructor
  · rw [supportBound_H, hform]
  · intro hp ing hing
    have hb1 : 1/2 * (schedule_product .H_PELLET c s).1 ≤ s.stocks.s1_HV := by
      have hle : (schedule_product .H_PELLET c s).1 ≤ s.stocks.s1_HV / (1/2) := by
        rw [hform]
        exact le_trans (min_le_right _ _) (le_trans (min_le_right _ _) (min_le_left _ _))
      rw [hd1] at hle
      linarith
    have hb2 : 1/2 * (schedule_product .H_PELLET c s).1 ≤ s.stocks.s2_LV := by
      have hle : (schedule_product .H_PELLET c s).1 ≤ s.stocks.s2_LV / (1/2) := by
        rw [hform]
        exact le_trans (min_le_right _ _) (le_trans (min_le_right _ _) (min_le_right _ _))
      rw [hd2] at hle
      linarith
    obtain ⟨e1, e2⟩ := sched_effects_H c s hb1 hb2 hp
    rw [show recipe .H_PELLET = [(.s1_HV, 1/2), (.s2_LV, 1/2)] from rfl,
      List.mem_cons, List.mem_singleton] at hing
    rcases hing with rfl | rfl
    · show stockVal (schedule_product .H_PELLET c s).2.stocks .s1HV =
        stockVal s.stocks .s1HV - 1/2 * (schedule_product .H_PELLET c s).1
      exact e1
    · show stockVal (schedule_product .H_PELLET c s).2.stocks .s2LV =
        stockVal s.stocks .s2LV - 1/2 * (schedule_product .H_PELLET c s).1
      exact e2

/-! ## The claims -/

set_option maxRecDepth 100000 in
/-- C1 counterexample: under `cfg_pool` (H target 100, G target 50, shared
S1+S2 pool ceiling 100), day 1's allocation draws 100 for H and 50 for G
from the same pool — 150 in total, over the ceiling — because G is
scheduled with the exhausted pool's remaining capacity 0, which
`schedule_product` treats as "no capacity bound". -/
theorem C1_counterexample :
    cfg_pool.s1s2_pack_capa <
      (allocateDay cfg_pool preAllocPool).packed_h +
        (allocateDay cfg_pool preAllocPool).packed_g +
        (allocateDay cfg_pool preAllocPool).hv_amount := by
  with_unfolding_all decide

/-- C1 (amended): the day's draws from the S1+S2 packing pool (H, G, then
the HV direct pack) sum to at most the pool ceiling, and the draws from
the granule pool (LV then LLV) sum to at most the granule line capacity,
provided each positive draw was made while its step capacity was still
positive (the capacity-0-means-uncapped escape of `schedule_product` is
what breaks the unconditional statement). -/
theorem C1_pool_conservation_amended (cfg : Config) (s : SimState)
    (hcap1 : 0 ≤ cfg.s1s2_pack_capa) (hcap2 : 0 ≤ cfg.granule_line_capa)
    (hh : 0 < (allocateDay cfg s).h_capacity ∨ (allocateDay cfg s).packed_h = 0)
    (hg : 0 < (allocateDay cfg s).g_capacity ∨ (allocateDay cfg s).packed_g = 0)
    (hlv : 0 < (allocateDay cfg s).lv_capacity ∨ (allocateDay cfg s).packed_lv = 0)
    (hllv : 0 < (allocateDay cfg s).llv_capacity ∨ (allocateDay cfg s).packed_llv = 0) :
    (allocateDay cfg s).packed_h + (allocateDay cfg s).packed_g +
        (allocateDay cfg s).hv_amount ≤ cfg.s1s2_pack_capa ∧
      (allocateDay cfg s).packed_lv + (allocateDay cfg s).packed_llv ≤
        cfg.granule_line_capa :=
  ⟨s1s2_pool_sum_le cfg s hcap1 hh hg, granule_pool_sum_le cfg s hcap2 hlv hllv⟩

set_option maxRecDepth 100000 in
/-- C1 witness: `cfgHalf` satisfies every hypothesis of the amended pool
conservation on day 1, and both pool sums stay within their ceilings. -/
theorem C1_pool_conservation_amended_witness :
    (0 : ℚ) ≤ cfgHalf.s1s2_pack_capa ∧ (0 : ℚ) ≤ cfgHalf.granule_line_capa ∧
    (0 < (allocateDay cfgHalf (initState cfgHalf)).h_capacity ∨
      (allocateDay cfgHalf (initState cfgHalf)).packed_h = 0) ∧
    (0 < (allocateDay cfgHalf (initState cfgHalf)).g_capacity ∨
      (allocateDay cfgHalf (initState cfgHalf)).packed_g = 0) ∧
    (0 < (allocateDay cfgHalf (initState cfgHalf)).lv_capacity ∨
      (allocateDay cfgHalf (initState cfgHalf)).packed_lv = 0) ∧
    (0 < (allocateDay cfgHalf (initState cfgHalf)).llv_capacity ∨
      (allocateDay cfgHalf (initState cfgHalf)).packed_llv = 0) ∧
    ((allocateDay cfgHalf (initState cfgHalf)).packed_h +
        (allocateDay cfgHalf (initState cfgHalf)).packed_g +
        (allocateDay cfgHalf (initState cfgHalf)).hv_amount ≤
          cfgHalf.s1s2_pack_capa ∧
      (allocateDay cfgHalf (initState cfgHalf)).packed_lv +
        (allocateDay cfgHalf (initState cfgHalf)).packed_llv ≤
          cfgHalf.granule_line_capa) :=
  ⟨by with_unfolding_all decide, by with_unfolding_all decide,
   by with_unfolding_all decide, by with_unfolding_all decide,
   by with_unfolding_all decide, by with_unfolding_all decide,
   C1_pool_conservation_amended cfgHalf (initState cfgHalf)
     (by with_unfolding_all decide) (by with_unfolding_all decide)
     (by with_unfolding_all decide) (by with_unfolding_all decide)
     (by with_unfolding_all decide) (by with_unfolding_all decide)⟩

set_option maxRecDepth 100000 in
/-- C2 counterexample: under `cfgNeg` (C target −5), C's `left` ends the
run negative, and for the HV direct pack `packed_sum + left` differs from
`goal_orig` (100 + 0 against 0). -/
theorem C2_counterexample :
    ((runAll cfgNeg).2.product_status .C_PELLET).left < 0 ∧
    ((runAll cfgNeg).2.product_status .HV_PACK).packed_sum +
        ((runAll cfgNeg).2.product_status .HV_PACK).left ≠
      ((runAll cfgNeg).2.product_status .HV_PACK).goal_orig := by
  with_unfolding_all decide

/-- C2 (amended): with every configured target non-negative, each
product's `left` is non-negative and non-increasing day over day,
`left = max 0 (goal_orig − packed_sum)` always, the unclamped identity
`packed_sum + left = goal_orig` holds for every targeted product (the HV
direct pack accumulates `packed_sum` with no target), and `packed_today`
is reset to 0 at the start of every simulated day. -/
theorem C2_target_invariants_amended (cfg : Config)
    (hg : ∀ pid, 0 ≤ goalOf cfg pid) (n : Nat) (pid : ProductId) (s : SimState) :
    0 ≤ ((stateAfter cfg n).product_status pid).left ∧
    ((stateAfter cfg (n + 1)).product_status pid).left ≤
      ((stateAfter cfg n).product_status pid).left ∧
    ((stateAfter cfg n).product_status pid).left =
      max 0 (((stateAfter cfg n).product_status pid).goal_orig -
        ((stateAfter cfg n).product_status pid).packed_sum) ∧
    (pid ≠ .HV_PACK →
      ((stateAfter cfg n).product_status pid).packed_sum +
          ((stateAfter cfg n).product_status pid).left =
        ((stateAfter cfg n).product_status pid).goal_orig) ∧
    ((resetPackedToday s).product_status pid).packed_today = 0 := by
  obtain ⟨hgo, hps, hlft, hadd⟩ := stateAfter_goalInv hg n pid
  refine ⟨?_, ?_, ?_, ?_, rfl⟩
  · rw [hlft]
    exact le_max_left _ _
  · rw [stateAfter_succ]
    exact runDay_left_le cfg _ pid
  · rw [hlft, hgo]
  · intro hpid
    rw [hgo]
    exact hadd hpid

set_option maxRecDepth 100000 in
/-- C2 witness: the amended target invariants at `cfg0`, day 1, product C. -/
theorem C2_target_invariants_amended_witness :
    (∀ pid, 0 ≤ goalOf cfg0 pid) ∧
    (0 ≤ ((stateAfter cfg0 1).product_status .C_PELLET).left ∧
     ((stateAfter cfg0 (1 + 1)).product_status .C_PELLET).left ≤
       ((stateAfter cfg0 1).product_status .C_PELLET).left ∧
     ((stateAfter cfg0 1).product_status .C_PELLET).left =
       max 0 (((stateAfter cfg0 1).product_status .C_PELLET).goal_orig -
         ((stateAfter cfg0 1).product_status .C_PELLET).packed_sum) ∧
     (ProductId.C_PELLET ≠ ProductId.HV_PACK →
       ((stateAfter cfg0 1).product_status .C_PELLET).packed_sum +
           ((stateAfter cfg0 1).product_status .C_PELLET).left =
         ((stateAfter cfg0 1).product_status .C_PELLET).goal_orig) ∧
     ((resetPackedToday (initState cfg0)).product_status .C_PELLET).packed_today = 0) :=
  ⟨by with_unfolding_all decide,
   C2_target_invariants_amended cfg0 (by with_unfolding_all decide) 1 .C_PELLET
     (initState cfg0)⟩

/-- C3: every `(site, material)` stock stays within `[0, its ceiling]`
(global 500, 300 for S2 LV, 350 for S3 NP3) at the end of every simulated
day, and also right after the replenishment phase of the following day. -/
theorem C3_stock_bounds (cfg : Config) (n : Nat) (k : StockKey) :
    (0 ≤ stockVal (stateAfter cfg n).stocks k ∧
      stockVal (stateAfter cfg n).stocks k ≤ stockCap k) ∧
    (0 ≤ stockVal (replenishDay cfg
          (planDay cfg (resetPackedToday (stateAfter cfg n)))
          (resetPackedToday (stateAfter cfg n))).1.stocks k ∧
      stockVal (replenishDay cfg
          (planDay cfg (resetPackedToday (stateAfter cfg n)))
          (resetPackedToday (stateAfter cfg n))).1.stocks k ≤ stockCap k) := by
  refine ⟨stateAfter_stockInv cfg n k, ?_⟩
  have h : StockInv (resetPackedToday (stateAfter cfg n)).stocks := by
    rw [resetPackedToday_stocks]
    exact stateAfter_stockInv cfg n
  exact replenishDay_stockInv cfg _ _ h k

/-- C4: the day loop emits at most the 30-day horizon, never stops while
a positive-target product is above the `0.001` tolerance, stops before
the horizon only once every positive-target product is within tolerance,
and its final state is the day iterate at the emitted length. -/
theorem C4_early_exit (cfg : Config) (i : Nat) :
    (runAll cfg).1.length ≤ DAYS ∧
    (i + 1 < (runAll cfg).1.length →
      ¬ donePos cfg (stateAfter cfg (i + 1))) ∧
    ((runAll cfg).1.length < DAYS →
      donePos cfg (stateAfter cfg (runAll cfg).1.length)) ∧
    (runAll cfg).2 = stateAfter cfg (runAll cfg).1.length := by
  obtain ⟨hlen, hfin, hrem, hstop, hpos⟩ := runDaysAux_spec cfg DAYS (initState cfg)
  have hb : ∀ n q, ((stateAfter cfg n).product_status q).left ≤ max 0 (goalOf cfg q) :=
    fun n q => stateAfter_left_le_max_goal cfg n q
  refine ⟨hlen, ?_, ?_, hfin⟩
  · intro hi hdone
    have h1 : remaining_targets (stateAfter cfg (i + 1)) = true := hrem i hi
    rw [(remaining_targets_iff cfg (stateAfter cfg (i + 1)) (hb (i + 1))).mpr hdone]
      at h1
    exact absurd h1 (by decide)
  · intro hlt
    have h2 : remaining_targets (stateAfter cfg (runAll cfg).1.length) = false :=
      hstop hlt
    exact (remaining_targets_iff cfg _ (hb _)).mp h2

set_option maxRecDepth 100000 in
/-- C4 witness: `cfgW` runs exactly two of the thirty days — day 1 leaves
the H target unmet, day 2 finishes it, and the final state is the second
iterate. -/
theorem C4_early_exit_witness :
    0 + 1 < (runAll cfgW).1.length ∧ (runAll cfgW).1.length < DAYS ∧
    ¬ donePos cfgW (stateAfter cfgW (0 + 1)) ∧
    donePos cfgW (stateAfter cfgW (runAll cfgW).1.length) ∧
    (runAll cfgW).2 = stateAfter cfgW (runAll cfgW).1.length :=
  ⟨by with_unfolding_all decide, by with_unfolding_all decide,
   (C4_early_exit cfgW 0).2.1 (by with_unfolding_all decide),
   (C4_early_exit cfgW 0).2.2.1 (by with_unfolding_all decide),
   (C4_early_exit cfgW 0).2.2.2⟩

set_option maxRecDepth 100000 in
/-- C5 counterexample: at G pellet's allocation step on day 1 under
`cfg_pool`, the step capacity is 0 (the pool is exhausted) yet G packs
50 — not the `min(remaining target, capacity, stock support)` of the
claim, which is non-positive at capacity 0. -/
theorem C5_counterexample :
    (allocateDay cfg_pool preAllocPool).g_capacity = 0 ∧
    (allocateDay cfg_pool preAllocPool).packed_g = 50 ∧
    (allocateDay cfg_pool preAllocPool).packed_g ≠
      min ((gStepState.product_status .G_PELLET).left)
        (min (allocateDay cfg_pool preAllocPool).g_capacity
          (supportBound .G_PELLET gStepState.stocks)) := by
  with_unfolding_all decide

/-- C5 (amended): for a targeted product scheduled with a positive
capacity limit from a well-formed ledger, the produced amount is exactly
`min(remaining target, capacity, stock support under the recipe ratios)`,
and a positive production debits every recipe ingredient by exactly
`quantity-per-unit × amount`, sets `left` to
`max 0 (left − amount)` and adds the amount to `packed_sum`.  (When the
capacity limit is 0 — an exhausted shared pool — the capacity bound is
skipped entirely, which is what breaks the unamended claim.) -/
theorem C5_allocation_amended (pid : ProductId) (c : ℚ) (s : SimState)
    (hHV : pid ≠ .HV_PACK) (hleft : 0 < (s.product_status pid).left) (hc : 0 < c)
    (hst : StockInv s.stocks) :
    (schedule_product pid c s).1 =
      min (s.product_status pid).left (min c (supportBound pid s.stocks)) ∧
    (0 < (schedule_product pid c s).1 →
      (∀ ing ∈ recipe pid,
        stockVal (schedule_product pid c s).2.stocks (keyOf ing.1) =
          stockVal s.stocks (keyOf ing.1) - ing.2 * (schedule_product pid c s).1) ∧
      ((schedule_product pid c s).2.product_status pid).left =
        max 0 ((s.product_status pid).left - (schedule_product pid c s).1) ∧
      ((schedule_product pid c s).2.product_status pid).packed_sum =
        (s.product_status pid).packed_sum + (schedule_product pid c s).1) := by
  have main :
      (schedule_product pid c s).1 =
        min (s.product_status pid).left (min c (supportBound pid s.stocks)) ∧
      (0 < (schedule_product pid c s).1 →
        ∀ ing ∈ recipe pid,
          stockVal (schedule_product pid c s).2.stocks (keyOf ing.1) =
            stockVal s.stocks (keyOf ing.1) - ing.2 * (schedule_product pid c s).1) := by
    cases pid with
    | C_PELLET => exact sched_full_single _ .LLV c s rfl hHV hleft hc hst
    | F_PELLET => exact sched_full_single _ .NP3 c s rfl hHV hleft hc hst
    | H_PELLET => exact sched_full_H c s hleft hc hst
    | G_PELLET => exact sched_full_single _ .s1_HV c s rfl hHV hleft hc hst
    | LV_PACK => exact sched_full_single _ .LV c s rfl hHV hleft hc hst
    | LLV_PACK => exact sched_full_single _ .LLV c s rfl hHV hleft hc hst
    | HV_PACK => exact absurd rfl hHV
  exact ⟨main.1, fun hp =>
    ⟨main.2 hp, (sched_status_pos pid c s hp).1, (sched_status_pos pid c s hp).2⟩⟩

set_option maxRecDepth 100000 in
/-- C5 witness: the amended allocation formula for H pellet at capacity
100 from the initial state of `cfgW`. -/
theorem C5_allocation_amended_witness :
    ProductId.H_PELLET ≠ ProductId.HV_PACK ∧
    0 < ((initState cfgW).product_status .H_PELLET).left ∧ (0 : ℚ) < 100 ∧
    StockInv (initState cfgW).stocks ∧
    ((schedule_product .H_PELLET 100 (initState cfgW)).1 =
      min ((initState cfgW).product_status .H_PELLET).left
        (min 100 (supportBound .H_PELLET (initState cfgW).stocks)) ∧
    (0 < (schedule_product .H_PELLET 100 (initState cfgW)).1 →
      (∀ ing ∈ recipe .H_PELLET,
        stockVal (schedule_product .H_PELLET 100 (initState cfgW)).2.stocks
            (keyOf ing.1) =
          stockVal (initState cfgW).stocks (keyOf ing.1) -
            ing.2 * (schedule_product .H_PELLET 100 (initState cfgW)).1) ∧
      ((schedule_product .H_PELLET 100 (initState cfgW)).2.product_status
            .H_PELLET).left =
        max 0 (((initState cfgW).product_status .H_PELLET).left -
          (schedule_product .H_PELLET 100 (initState cfgW)).1) ∧
      ((schedule_product .H_PELLET 100 (initState cfgW)).2.product_status
            .H_PELLET).packed_sum =
        ((initState cfgW).product_status .H_PELLET).packed_sum +
          (schedule_product .H_PELLET 100 (initState cfgW)).1)) :=
  ⟨by decide, by with_unfolding_all decide, by norm_num,
   stateAfter_stockInv cfgW 0,
   C5_allocation_amended .H_PELLET 100 (initState cfgW) (by decide)
     (by with_unfolding_all decide) (by norm_num) (stateAfter_stockInv cfgW 0)⟩

/-- C6: C pellet's production is capped by `max 0 (S3 LLV − 50)`; at a
ledger whose S3 LLV stock equals the 50-unit safety floor exactly, C's
allocation is 0 whatever its target and capacity, and a ledger at or
above the floor stays at or above it through C's draw. -/
theorem C6_safety_floor (c : ℚ) (s : SimState) :
    (schedule_product .C_PELLET c s).1 ≤
      max 0 (s.stocks.s3_LLV - LLV_SAFETY_STOCK_FOR_C) ∧
    (s.stocks.s3_LLV = LLV_SAFETY_STOCK_FOR_C →
      (schedule_product .C_PELLET c s).1 = 0) ∧
    (LLV_SAFETY_STOCK_FOR_C ≤ s.stocks.s3_LLV →
      LLV_SAFETY_STOCK_FOR_C ≤ (schedule_product .C_PELLET c s).2.stocks.s3_LLV) := by
  refine ⟨sched_C_le_avail c s, ?_, sched_C_llv_after c s⟩
  intro h50
  have h1 := sched_C_le_avail c s
  rw [h50, sub_self] at h1
  rw [max_self] at h1
  exact le_antisymm h1 (sched_fst_nonneg _ c s)

set_option maxRecDepth 100000 in
/-- C6 witness: with S3 LLV stock exactly at the safety floor and a C
target of 10, C's allocation is 0 and the floor is kept. -/
theorem C6_safety_floor_witness :
    sFloor.stocks.s3_LLV = LLV_SAFETY_STOCK_FOR_C ∧
    (schedule_product .C_PELLET 99 sFloor).1 = 0 ∧
    LLV_SAFETY_STOCK_FOR_C ≤ (schedule_product .C_PELLET 99 sFloor).2.stocks.s3_LLV :=
  ⟨by with_unfolding_all decide,
   (C6_safety_floor 99 sFloor).2.1 (by with_unfolding_all decide),
   (C6_safety_floor 99 sFloor).2.2 (by with_unfolding_all decide)⟩

/-- C7: whenever F pellet still has remaining target and the NP3 stock is
below the pre-campaign minimum, the day's NP3 target level is raised to
at least the 320-unit batch size (capped at the 350 ceiling), and the NP3
campaign's conversion is exact: NP3 produced = LV consumed × 0.5. -/
theorem C7_np3_campaign (pl : Planned) (f_left rcap rroom : ℚ) (st : Stocks)
    (hf : 0 < f_left) (hnp : st.s3_NP3 < NP3_MIN_STOCK_BEFORE_CAMPAIGN) :
    NP3_TARGET_BATCH_PRODUCTION_SIZE ≤
        (np3Block pl f_left rcap rroom st).np3_target_level ∧
    (np3Block pl f_left rcap rroom st).np3_target_level ≤ NP3_MAX_INV ∧
    (np3Block pl f_left rcap rroom st).np3_produced =
      (np3Block pl f_left rcap rroom st).lv_for_np3 *
        NP3_PRODUCTION_RATE_IN_CAMPAIGN := by
  obtain ⟨h1, h2⟩ := np3TargetLevel_ge pl f_left hf
  rw [np3Block_target]
  exact ⟨h1, h2, np3Block_conversion pl f_left rcap rroom st⟩

set_option maxRecDepth 100000 in
/-- C7 witness: `stC7` has NP3 stock 40 below the 50-unit minimum and F
target remaining 10, so the campaign target is within [320, 350] and the
conversion identity holds. -/
theorem C7_np3_campaign_witness :
    (0 : ℚ) < 10 ∧ stC7.s3_NP3 < NP3_MIN_STOCK_BEFORE_CAMPAIGN ∧
    (NP3_TARGET_BATCH_PRODUCTION_SIZE ≤
        (np3Block plC7 10 100 100 stC7).np3_target_level ∧
      (np3Block plC7 10 100 100 stC7).np3_target_level ≤ NP3_MAX_INV ∧
      (np3Block plC7 10 100 100 stC7).np3_produced =
        (np3Block plC7 10 100 100 stC7).lv_for_np3 *
          NP3_PRODUCTION_RATE_IN_CAMPAIGN) :=
  ⟨by norm_num, by with_unfolding_all decide,
   C7_np3_campaign plC7 10 100 100 stC7 (by norm_num)
     (by with_unfolding_all decide)⟩

set_option maxRecDepth 100000 in
/-- C8 counterexample: under `cfg0` every target is 0, the untargeted HV
direct pack still produces, and the summary's achievement rate is 0, not
the claimed 100%. -/
theorem C8_counterexample :
    (∀ pid, goalOf cfg0 pid = 0) ∧
    0 < ((runAll cfg0).2.product_status .HV_PACK).packed_sum ∧
    (summaryOf cfg0).overall_achievement_rate = 0 ∧
    (summaryOf cfg0).overall_achievement_rate ≠ 100 := by
  with_unfolding_all decide

/-- C8 (amended): with every configured target 0, no targeted product is
ever allocated anything (its `packed_sum` and `left` stay 0 all run), and
the summary's achievement rate is 0 — the rate's 100% branch reads only
positive-target rows, so untargeted direct-pack output never triggers
it. -/
theorem C8_zero_targets_amended (cfg : Config) (hz : ∀ pid, goalOf cfg pid = 0)
    (n : Nat) (pid : ProductId) (hpid : pid ≠ .HV_PACK) :
    ((stateAfter cfg n).product_status pid).packed_sum = 0 ∧
    ((stateAfter cfg n).product_status pid).left = 0 ∧
    (summaryOf cfg).overall_achievement_rate = 0 := by
  have hfr := stateAfter_frozen cfg pid hpid (hz pid) n
  rw [hfr]
  exact ⟨rfl, rfl, summaryOf_rate_zero cfg hz⟩

set_option maxRecDepth 100000 in
/-- C8 witness: the amended zero-target behaviour at `cfg0`, day 1,
product C. -/
theorem C8_zero_targets_amended_witness :
    (∀ pid, goalOf cfg0 pid = 0) ∧ ProductId.C_PELLET ≠ ProductId.HV_PACK ∧
    (((stateAfter cfg0 1).product_status .C_PELLET).packed_sum = 0 ∧
     ((stateAfter cfg0 1).product_status .C_PELLET).left = 0 ∧
     (summaryOf cfg0).overall_achievement_rate = 0) :=
  ⟨by with_unfolding_all decide, by decide,
   C8_zero_targets_amended cfg0 (by with_unfolding_all decide) 1 .C_PELLET
     (by decide)⟩

/-- C9: with the emergency flag on, the day's S2 LV input capacity is the
standard daily capacity plus the configured emergency allowance (and the
standard capacity alone with the flag off); for any configuration whose
emergency allowance is 0, the two runs and their summaries coincide
exactly. -/
theorem C9_emergency_mode (cfg : Config) (h : cfg.s2_emerg = 0) :
    s2_lv_capacity { cfg with emerg := true } = cfg.s2_daily + cfg.s2_emerg ∧
    s2_lv_capacity { cfg with emerg := false } = cfg.s2_daily ∧
    runAll { cfg with emerg := true } = runAll { cfg with emerg := false } ∧
    summaryOf { cfg with emerg := true } = summaryOf { cfg with emerg := false } :=
  ⟨rfl, rfl, runAll_toggle cfg h, summaryOf_toggle cfg h⟩

/-- C9 witness: the emergency-mode equivalence at `cfgHalf`, whose
emergency allowance is 0. -/
theorem C9_emergency_mode_witness :
    cfgHalf.s2_emerg = 0 ∧
    (s2_lv_capacity { cfgHalf with emerg := true } =
        cfgHalf.s2_daily + cfgHalf.s2_emerg ∧
      s2_lv_capacity { cfgHalf with emerg := false } = cfgHalf.s2_daily ∧
      runAll { cfgHalf with emerg := true } = runAll { cfgHalf with emerg := false } ∧
      summaryOf { cfgHalf with emerg := true } =
        summaryOf { cfgHalf with emerg := false }) :=
  ⟨rfl, C9_emergency_mode cfgHalf rfl⟩

/-- C10: a capacity limit of exactly 0 applies no capacity bound at all —
scheduling with limit 0 gives the same produced amount and the same state
as scheduling with any limit at least the whole remaining target. -/
theorem C10_zero_capacity_uncapped (pid : ProductId) (c : ℚ) (s : SimState)
    (h : (s.product_status pid).left ≤ c) :
    schedule_product pid 0 s = schedule_product pid c s := by
  by_cases h1 : pid = .HV_PACK
  · subst h1
    rw [sched_HV, sched_HV]
  by_cases h2 : (s.product_status pid).left ≤ 0
  · rw [sched_of_nonpos pid 0 s h2, sched_of_nonpos pid c s h2]
  have hc : 0 < c := lt_of_lt_of_le (not_le.mp h2) h
  simp only [schedule_product, if_neg h1, if_neg h2, if_pos hc, gt_iff_lt,
    lt_self_iff_false, if_false, min_eq_left h]

set_option maxRecDepth 100000 in
/-- C10 witness: with a C target of 50, scheduling C with capacity limit
0 equals scheduling it with the ample limit 100. -/
theorem C10_zero_capacity_uncapped_witness :
    ((initState cfgTen).product_status .C_PELLET).left ≤ 100 ∧
    schedule_product .C_PELLET 0 (initState cfgTen) =
      schedule_product .C_PELLET 100 (initState cfgTen) :=
  ⟨by with_unfolding_all decide,
   C10_zero_capacity_uncapped .C_PELLET 100 (initState cfgTen)
     (by with_unfolding_all decide)⟩

end PlanSim
